import Mathlib

set_option maxRecDepth 4000
set_option maxHeartbeats 1000000
set_option linter.unnecessarySeqFocus false

/-!
# Verification of the utpl template-language specification

The repository ships the interpreter core only as a build description
(`src/CMakeLists.txt` lists `main.c ast.c lexer.c parser.c eval.c lib.c`,
none of which are present under `src/`) together with its test fixtures
(`src/tests/...`, `src/unnamed/part_000..0002`) and one binding module
(`src/lib/yaml.c`).  The value model, coercion rules and evaluator below
are therefore modelled from the specification (`spec.md` sections 3 and 4)
and checked against the expected outputs recorded in the test fixtures;
the yaml definitions are shallow embeddings of `src/lib/yaml.c`.
-/

namespace Utpl

/-- Modelled from the spec: IEEE-double values of the interpreter core
(`eval.c` is absent from the sources).  All doubles reached by the claims
arise from decimal literals and exact arithmetic on them, so finite doubles
are modelled as exact fractions in lowest terms, together with the
non-finite values `Infinity`, `-Infinity` and `NaN` that the spec's
coercion rules produce. -/
inductive UDouble where
  | fin (num : Int) (den : Nat)
  | inf (pos : Bool)
  | nan
deriving DecidableEq, Repr

/-- Build a finite double from a fraction, reducing it to lowest terms. -/
def mkFin (n : Int) (d : Nat) : UDouble :=
  if d = 0 then .nan
  else
    let g : Nat := Nat.gcd n.natAbs d
    .fin (n / (g : Int)) (d / g)

/-- Build a double from a fraction with an integer denominator, handling
sign and a zero denominator (the spec's division-by-zero rule:
signed Infinity, or NaN for 0/0). -/
def mkFinI (n : Int) (d : Int) : UDouble :=
  if d = 0 then (if n = 0 then .nan else .inf (0 < n))
  else if 0 < d then mkFin n d.natAbs
  else mkFin (-n) d.natAbs

def dNeg : UDouble → UDouble
  | .fin n d => .fin (-n) d
  | .inf p => .inf (!p)
  | .nan => .nan

def dAdd : UDouble → UDouble → UDouble
  | .nan, _ => .nan
  | _, .nan => .nan
  | .inf p, .inf q => if p = q then .inf p else .nan
  | .inf p, .fin _ _ => .inf p
  | .fin _ _, .inf q => .inf q
  | .fin a b, .fin c d => mkFin (a * (d : Int) + c * (b : Int)) (b * d)

def dSub (x y : UDouble) : UDouble := dAdd x (dNeg y)

def dMul : UDouble → UDouble → UDouble
  | .nan, _ => .nan
  | _, .nan => .nan
  | .inf p, .inf q => .inf (p = q)
  | .inf p, .fin n _ => if n = 0 then .nan else .inf (p = (0 < n))
  | .fin n _, .inf q => if n = 0 then .nan else .inf (q = (0 < n))
  | .fin a b, .fin c d => mkFin (a * c) (b * d)

def dDiv : UDouble → UDouble → UDouble
  | .nan, _ => .nan
  | _, .nan => .nan
  | .inf _, .inf _ => .nan
  | .inf p, .fin n _ => .inf (p = (0 ≤ n))
  | .fin _ _, .inf _ => .fin 0 1
  | .fin a b, .fin c d => mkFinI (a * (d : Int)) ((b : Int) * c)

/-- Truncation of a double toward zero (spec 4.4, bitwise operators:
"doubles truncate toward zero before bit conversion").  The spec leaves
non-finite doubles unspecified here; they are mapped to 0. -/
def dTrunc : UDouble → Int
  | .fin n d => if 0 ≤ n then ((n.natAbs / d : Nat) : Int) else -((n.natAbs / d : Nat) : Int)
  | .inf _ => 0
  | .nan => 0

/-- A coerced numeric operand: either an Int64 or a Double (spec 4.4). -/
inductive UcNum where
  | int (n : Int)
  | dbl (d : UDouble)
deriving DecidableEq, Repr

/-- View a numeric operand as a double (int-to-double promotion). -/
def toD : UcNum → UDouble
  | .int n => .fin n 1
  | .dbl d => d

/-- Signed 64-bit integer range check. -/
def fitsI64 (n : Int) : Bool := decide (-(2 ^ 63) ≤ n) && decide (n < 2 ^ 63)

/-- Result of exact integer arithmetic: Int64 when in range, otherwise
promoted to a double (spec 4.4, addition: "int64 if both were integral
and no overflow, else double"). -/
def intArith (n : Int) : UcNum :=
  if fitsI64 n then .int n else .dbl (mkFin n 1)

def numNeg : UcNum → UcNum
  | .int n => intArith (-n)
  | .dbl d => .dbl (dNeg d)

def numAdd : UcNum → UcNum → UcNum
  | .int a, .int b => intArith (a + b)
  | x, y => .dbl (dAdd (toD x) (toD y))

def numSub : UcNum → UcNum → UcNum
  | .int a, .int b => intArith (a - b)
  | x, y => .dbl (dSub (toD x) (toD y))

def numMul : UcNum → UcNum → UcNum
  | .int a, .int b => intArith (a * b)
  | x, y => .dbl (dMul (toD x) (toD y))

/-- C-style truncated integer division (used for int/int with a nonzero
divisor). -/
def intTDiv (a b : Int) : Int :=
  if (0 ≤ a) = (0 ≤ b) then ((a.natAbs / b.natAbs : Nat) : Int)
  else -((a.natAbs / b.natAbs : Nat) : Int)

def numDiv : UcNum → UcNum → UcNum
  | .int a, .int b =>
      if b = 0 then .dbl (if a = 0 then .nan else .inf (0 < a))
      else .int (intTDiv a b)
  | x, y => .dbl (dDiv (toD x) (toD y))

def numMod : UcNum → UcNum → UcNum
  | .int a, .int b => if b = 0 then .dbl .nan else .int (a - b * intTDiv a b)
  | _, _ => .dbl .nan

/-- Numeric comparison used by the relational operators. -/
def numLt : UcNum → UcNum → Bool
  | .int a, .int b => decide (a < b)
  | x, y =>
    match toD x, toD y with
    | .nan, _ => false
    | _, .nan => false
    | .inf p, .inf q => !p && q
    | .inf p, .fin _ _ => !p
    | .fin _ _, .inf q => q
    | .fin a b, .fin c d => decide (a * (d : Int) < c * (b : Int))

/-- Unary operators (spec 4.2); `!` is omitted as no claim uses it. -/
inductive UnOp where
  | plus
  | minus
  | bnot
deriving DecidableEq, Repr

/-- Binary operators exercised by the claims (spec 4.2 precedence table). -/
inductive BinOp where
  | add
  | sub
  | mul
  | div
  | mod
  | shl
  | shr
  | band
  | bxor
  | bor
  | lt
deriving DecidableEq, Repr

mutual

/-- Modelled from the spec (section 3, Data Model): the tagged value
variant of the interpreter core, whose sources are absent.  A function
value carries the declaration's name and parameter list, its body, and
the captured scope as a list of frame identifiers into the evaluation
heap (closures capture scope frames by reference, spec 3 Scope
invariant). -/
inductive UcValue where
  | null
  | bool (b : Bool)
  | i64 (n : Int)
  | dbl (d : UDouble)
  | str (s : String)
  | arr (xs : List UcValue)
  | obj (kvs : List (String × UcValue))
  | func (name : Option String) (params : List String) (body : List Stmt) (env : List Nat)

/-- Modelled from the spec (section 3, AST Node): expression nodes.
Only the node kinds exercised by the claims under verification are
modelled. -/
inductive Expr where
  | lit (v : UcValue)
  | ident (name : String)
  | arrLit (xs : List Expr)
  | objLit (kvs : List (String × Expr))
  | funcExpr (name : Option String) (params : List String) (body : List Stmt)
  | unop (op : UnOp) (e : Expr)
  | binop (op : BinOp) (l r : Expr)
  | assign (name : String) (e : Expr)
  | postIncr (name : String)
  | call (f : Expr) (args : List Expr)

/-- Modelled from the spec (section 3, AST Node): statement nodes. -/
inductive Stmt where
  | exprStmt (e : Expr)
  | block (ss : List Stmt)
  | ifS (c : Expr) (t : Stmt) (e : Option Stmt)
  | forC (init : Option Stmt) (cond : Option Expr) (step : Option Expr) (body : Stmt)
  | forIn (isLocal : Bool) (name : String) (coll : Expr) (body : Stmt)
  | funcDecl (name : String) (params : List String) (body : List Stmt)
  | ret (e : Option Expr)
  | brk
  | cont
  | localDecl (name : String) (e : Expr)

end



/-- Decimal digit test. -/
def isDig (c : Char) : Bool := '0' ≤ c && c ≤ '9'

def isHexDig (c : Char) : Bool :=
  isDig c || ('a' ≤ c && c ≤ 'f') || ('A' ≤ c && c ≤ 'F')

def isOctDig (c : Char) : Bool := '0' ≤ c && c ≤ '7'

def digVal (c : Char) : Nat :=
  if isDig c then c.toNat - 48
  else if 'a' ≤ c && c ≤ 'f' then c.toNat - 87
  else c.toNat - 55

def digitsVal (base : Nat) (cs : List Char) : Nat :=
  cs.foldl (fun acc c => acc * base + digVal c) 0

/-- Modelled from the spec (4.4, "String → number parse"): scan a leading
numeric token of a string: optional sign, then a hexadecimal (`0x`),
octal (leading `0`), or decimal integer form, or a floating form
(mantissa, optional fractional part, optional exponent).  Returns `none`
when the string has no valid leading numeric token. -/
def scanNum (cs : List Char) : Option UcNum :=
  let core : List Char → Option UcNum := fun cs1 =>
    match cs1 with
    | '0' :: 'x' :: r => some (.int (digitsVal 16 (r.takeWhile isHexDig)))
    | '0' :: 'X' :: r => some (.int (digitsVal 16 (r.takeWhile isHexDig)))
    | _ =>
      let ds := cs1.takeWhile isDig
      let rest := cs1.dropWhile isDig
      let mkFloat : List Char → List Char → Int → Option UcNum := fun ips fps ex =>
        let mant : Int := (digitsVal 10 (ips ++ fps) : Nat)
        if 0 ≤ ex then
          some (.dbl (mkFin (mant * ((10 : Int) ^ ex.natAbs)) (10 ^ fps.length)))
        else
          some (.dbl (mkFin mant (10 ^ fps.length * 10 ^ ex.natAbs)))
      let expOf : List Char → Int := fun r =>
        match r with
        | 'e' :: '+' :: r2 => (digitsVal 10 (r2.takeWhile isDig) : Nat)
        | 'E' :: '+' :: r2 => (digitsVal 10 (r2.takeWhile isDig) : Nat)
        | 'e' :: '-' :: r2 => -((digitsVal 10 (r2.takeWhile isDig) : Nat) : Int)
        | 'E' :: '-' :: r2 => -((digitsVal 10 (r2.takeWhile isDig) : Nat) : Int)
        | 'e' :: r2 => (digitsVal 10 (r2.takeWhile isDig) : Nat)
        | 'E' :: r2 => (digitsVal 10 (r2.takeWhile isDig) : Nat)
        | _ => 0
      let isExpStart : List Char → Bool := fun r =>
        match r with
        | 'e' :: '+' :: r2 => !(r2.takeWhile isDig).isEmpty
        | 'E' :: '+' :: r2 => !(r2.takeWhile isDig).isEmpty
        | 'e' :: '-' :: r2 => !(r2.takeWhile isDig).isEmpty
        | 'E' :: '-' :: r2 => !(r2.takeWhile isDig).isEmpty
        | 'e' :: r2 => !(r2.takeWhile isDig).isEmpty
        | 'E' :: r2 => !(r2.takeWhile isDig).isEmpty
        | _ => false
      if ds.isEmpty then
        match cs1 with
        | '.' :: r2 =>
          let fs := r2.takeWhile isDig
          if fs.isEmpty then none
          else
            let r3 := r2.dropWhile isDig
            mkFloat [] fs (if isExpStart r3 then expOf r3 else 0)
        | _ => none
      else
        match rest with
        | '.' :: r2 =>
          let fs := r2.takeWhile isDig
          let r3 := r2.dropWhile isDig
          mkFloat ds fs (if isExpStart r3 then expOf r3 else 0)
        | r =>
          if isExpStart r then mkFloat ds [] (expOf r)
          else
            match ds with
            | '0' :: d2 :: dr =>
              if isOctDig d2 then
                some (.int (digitsVal 8 ((d2 :: dr).takeWhile isOctDig)))
              else some (.int 0)
            | _ => some (.int (digitsVal 10 ds))
  match cs with
  | '+' :: r => core r
  | '-' :: r =>
    match core r with
    | some (.int n) => some (.int (-n))
    | some (.dbl d) => some (.dbl (dNeg d))
    | none => none
  | _ => core cs

/-- The "string → number" scan of spec 4.4: a string with no valid
leading numeric token parses to NaN. -/
def strToNum (s : String) : UcNum :=
  match scanNum s.data with
  | some n => n
  | none => .dbl .nan

/-- Modelled from the spec (4.4): implicit numeric coercion of a value:
numbers pass through, strings use the leading-numeric-token scan,
`null` and booleans map to integers, and arrays, objects and functions
coerce to NaN. -/
def toNumeric : UcValue → UcNum
  | .null => .int 0
  | .bool b => .int (if b then 1 else 0)
  | .i64 n => .int n
  | .dbl d => .dbl d
  | .str s => strToNum s
  | .arr _ => .dbl .nan
  | .obj _ => .dbl .nan
  | .func _ _ _ _ => .dbl .nan

/-- Wrap a coerced numeric operand back into a value. -/
def numToVal : UcNum → UcValue
  | .int n => .i64 n
  | .dbl d => .dbl d

def isStr : UcValue → Bool
  | .str _ => true
  | _ => false

/-- Decimal digit character. -/
def digChar (d : Nat) : String := String.singleton (Char.ofNat (48 + d))

def natStrAux : Nat → Nat → String
  | 0, _ => ""
  | fu + 1, n => if n < 10 then digChar n else natStrAux fu (n / 10) ++ digChar (n % 10)

def natStr (n : Nat) : String := natStrAux (n + 1) n

def intStr (n : Int) : String :=
  if 0 ≤ n then natStr n.natAbs else "-" ++ natStr n.natAbs

/-- Decimal digits of the fractional part of `num/den`, at most `fu`
digits, with trailing zeros trimmed by construction (the recursion stops
as soon as the remainder is zero). -/
def fracStr : Nat → Nat → Nat → String
  | 0, _, _ => ""
  | _ + 1, 0, _ => ""
  | fu + 1, r, den => digChar (r * 10 / den) ++ fracStr fu (r * 10 % den) den

/-- Compact decimal rendering of a finite double (spec 4.4,
stringification of doubles). -/
def finStr (n : Int) (d : Nat) : String :=
  let sign := if 0 ≤ n then "" else "-"
  let ip := n.natAbs / d
  let r := n.natAbs % d
  if r = 0 then sign ++ natStr ip
  else sign ++ natStr ip ++ "." ++ fracStr 17 r d

/-- Stringification of a double: compact decimal form, with non-finite
doubles rendered as `Infinity`, `-Infinity` and `NaN` (spec 4.4). -/
def dblStr : UDouble → String
  | .fin n d => finStr n d
  | .inf true => "Infinity"
  | .inf false => "-Infinity"
  | .nan => "NaN"

def joinSep (sep : String) : List String → String
  | [] => ""
  | [x] => x
  | x :: rest => x ++ sep ++ joinSep sep rest

def funcStr (name : Option String) (params : List String) : String :=
  "function" ++ (match name with | some n => " " ++ n | none => "") ++
    "(" ++ joinSep ", " params ++ ") \x7b ... \x7d"

mutual

/-- Modelled from the spec (4.4, stringification): the JSON-like literal
rendering used for values nested inside arrays and objects, where string
values are double-quoted. -/
def jsonStr : UcValue → String
  | .null => "null"
  | .bool true => "true"
  | .bool false => "false"
  | .i64 n => intStr n
  | .dbl d => dblStr d
  | .str s => "\"" ++ s ++ "\""
  | .arr [] => "[ ]"
  | .arr (x :: xs) => "[ " ++ jsonStr x ++ jsonListStr xs ++ " ]"
  | .obj [] => "\x7b \x7d"
  | .obj (kv :: kvs) =>
      "\x7b " ++ "\"" ++ kv.1 ++ "\": " ++ jsonStr kv.2 ++ jsonFieldsStr kvs ++ " \x7d"
  | .func name params _ _ => funcStr name params

def jsonListStr : List UcValue → String
  | [] => ""
  | x :: xs => ", " ++ jsonStr x ++ jsonListStr xs

def jsonFieldsStr : List (String × UcValue) → String
  | [] => ""
  | kv :: kvs => ", " ++ "\"" ++ kv.1 ++ "\": " ++ jsonStr kv.2 ++ jsonFieldsStr kvs

end

/-- Modelled from the spec (4.4, stringification, used by string
concatenation, print and implicit string contexts): top-level strings are
rendered verbatim, `null` as the literal token `null` (the behaviour the
arithmetic-conversion fixture records for `"" + null`), and arrays and
objects by their JSON-like literal rendering. -/
def toStr (v : UcValue) : String :=
  match v with
  | .str s => s
  | _ => jsonStr v

/-- Modelled from the spec (4.4, Addition): if either operand is a
string, both operands are stringified and concatenated; otherwise both
are coerced to number and summed. -/
def ucAdd (a b : UcValue) : UcValue :=
  if isStr a || isStr b then .str (toStr a ++ toStr b)
  else numToVal (numAdd (toNumeric a) (toNumeric b))

def ucSub (a b : UcValue) : UcValue := numToVal (numSub (toNumeric a) (toNumeric b))

def ucMul (a b : UcValue) : UcValue := numToVal (numMul (toNumeric a) (toNumeric b))

def ucDiv (a b : UcValue) : UcValue := numToVal (numDiv (toNumeric a) (toNumeric b))

def ucMod (a b : UcValue) : UcValue := numToVal (numMod (toNumeric a) (toNumeric b))

/-- Spec 4.4, unary `+`: coerce the operand to a number. -/
def uPlus (v : UcValue) : UcValue := numToVal (toNumeric v)

/-- Spec 4.4, unary `-`: coerce like unary `+`, then negate. -/
def uMinus (v : UcValue) : UcValue := numToVal (numNeg (toNumeric v))

/-- Unsigned 64-bit view of an integer (two's complement). -/
def toU64 (n : Int) : Nat := (n % ((2 : Int) ^ 64)).toNat

/-- Signed 64-bit view of an unsigned 64-bit number. -/
def fromU64 (u : Nat) : Int :=
  if u < 2 ^ 63 then (u : Int) else (u : Int) - 2 ^ 64

/-- Modelled from the spec (4.4, bitwise operators): each operand is
coerced to a numeric value, doubles are truncated toward zero, and the
result is reduced to a signed 64-bit integer. -/
def toInt64 (v : UcValue) : Int :=
  match toNumeric v with
  | .int n => fromU64 (toU64 n)
  | .dbl d => fromU64 (toU64 (dTrunc d))

/-- Shift amount of the right operand, reduced modulo the 64-bit width. -/
def shAmt (v : UcValue) : Nat := toU64 (toInt64 v) % 64

def ucShl (a b : UcValue) : UcValue :=
  .i64 (fromU64 ((toU64 (toInt64 a) <<< shAmt b) % 2 ^ 64))

/-- Arithmetic (sign-extending) right shift, i.e. flooring division by a
power of two. -/
def ucShr (a b : UcValue) : UcValue :=
  .i64 (Int.fdiv (toInt64 a) ((2 : Int) ^ shAmt b))

def ucAnd (a b : UcValue) : UcValue :=
  .i64 (fromU64 (Nat.land (toU64 (toInt64 a)) (toU64 (toInt64 b))))

def ucXor (a b : UcValue) : UcValue :=
  .i64 (fromU64 (Nat.xor (toU64 (toInt64 a)) (toU64 (toInt64 b))))

def ucOr (a b : UcValue) : UcValue :=
  .i64 (fromU64 (Nat.lor (toU64 (toInt64 a)) (toU64 (toInt64 b))))

/-- Bitwise complement `~`. -/
def ucNot (a : UcValue) : UcValue :=
  .i64 (fromU64 (Nat.xor (toU64 (toInt64 a)) (2 ^ 64 - 1)))

/-- Relational `<`: strings compare lexicographically, anything else
numerically. -/
def ucLt (a b : UcValue) : UcValue :=
  match a, b with
  | .str s, .str t => .bool (decide (s < t))
  | _, _ => .bool (numLt (toNumeric a) (toNumeric b))

/-- Truthiness (spec 4.4): `null`, `false`, `0`, `0.0`, the empty string
and empty arrays and objects are falsy; everything else, including NaN,
is truthy. -/
def truthy : UcValue → Bool
  | .null => false
  | .bool b => b
  | .i64 n => decide (n ≠ 0)
  | .dbl (.fin n _) => decide (n ≠ 0)
  | .dbl (.inf _) => true
  | .dbl .nan => true
  | .str s => decide (s ≠ "")
  | .arr xs => !xs.isEmpty
  | .obj kvs => !kvs.isEmpty
  | .func _ _ _ _ => true

def applyUnOp : UnOp → UcValue → UcValue
  | .plus, v => uPlus v
  | .minus, v => uMinus v
  | .bnot, v => ucNot v

def applyBinOp : BinOp → UcValue → UcValue → UcValue
  | .add, a, b => ucAdd a b
  | .sub, a, b => ucSub a b
  | .mul, a, b => ucMul a b
  | .div, a, b => ucDiv a b
  | .mod, a, b => ucMod a b
  | .shl, a, b => ucShl a b
  | .shr, a, b => ucShr a b
  | .band, a, b => ucAnd a b
  | .bxor, a, b => ucXor a b
  | .bor, a, b => ucOr a b
  | .lt, a, b => ucLt a b

/-- One variable frame: an insertion-ordered mapping from identifiers to
values. -/
abbrev Frame := List (String × UcValue)

/-- Evaluation state: the heap of scope frames (a frame identifier is an
index into this list; frames are shared by reference, so closures observe
later mutations of captured frames) and the output buffer. -/
structure EvalState where
  heap : List Frame
  out : String

/-- Statement outcome (spec 4.4 control flow): normal completion, loop
break/continue, function return, or a runtime-fatal error. -/
inductive Ctl where
  | normal
  | brk
  | cont
  | ret (v : UcValue)
  | err (msg : String)

/-- Expression outcome: a value or a runtime-fatal error. -/
inductive ERes where
  | ok (v : UcValue)
  | err (msg : String)

def assocGet (name : String) : Frame → Option UcValue
  | [] => none
  | (k, v) :: rest => if k = name then some v else assocGet name rest

/-- Replace an existing binding in place, or append a new one (insertion
order preserved; re-adding a key replaces its value in place, spec 3). -/
def assocSet (name : String) (v : UcValue) : Frame → Frame
  | [] => [(name, v)]
  | (k, w) :: rest => if k = name then (k, v) :: rest else (k, w) :: assocSet name v rest

def heapGet (heap : List Frame) (fid : Nat) : Frame := heap.getD fid []

def heapSet (heap : List Frame) (fid : Nat) (f : Frame) : List Frame := heap.set fid f

/-- Variable lookup: walk the scope chain from the innermost frame
outward (spec 3, Scope). -/
def lookupVar (heap : List Frame) : List Nat → String → Option UcValue
  | [], _ => none
  | fid :: rest, name =>
    match assocGet name (heapGet heap fid) with
    | some v => some v
    | none => lookupVar heap rest name

/-- The innermost frame of the chain that already binds `name`. -/
def envFrameOf (heap : List Frame) (env : List Nat) (name : String) : Option Nat :=
  env.find? (fun fid => (assocGet name (heapGet heap fid)).isSome)

/-- Assignment (spec 3, Scope): mutate the innermost existing binding;
a name absent from every frame creates a binding in the global
(outermost) frame. -/
def assignVar (heap : List Frame) (env : List Nat) (name : String) (v : UcValue) :
    List Frame :=
  match envFrameOf heap env name with
  | some fid => heapSet heap fid (assocSet name v (heapGet heap fid))
  | none =>
    let g := env.getLastD 0
    heapSet heap g (assocSet name v (heapGet heap g))

/-- `local` declaration: always create or update the binding in the
current (innermost) frame (spec 3, Scope). -/
def declareLocal (heap : List Frame) (env : List Nat) (name : String) (v : UcValue) :
    List Frame :=
  let fid := env.headD 0
  heapSet heap fid (assocSet name v (heapGet heap fid))

/-- Positional parameter binding for a call: extra arguments are ignored,
missing arguments are bound to null (spec 4.4, function call). -/
def bindParams : List String → List UcValue → Frame
  | [], _ => []
  | p :: ps, [] => (p, .null) :: bindParams ps []
  | p :: ps, a :: as0 => (p, a) :: bindParams ps as0

/-- Enumeration snapshot of a for-in collection (spec 4.4): array items
in index order, or object keys in insertion order; any other value
enumerates nothing. -/
def enumList : UcValue → List UcValue
  | .arr xs => xs
  | .obj kvs => kvs.map (fun kv => .str kv.1)
  | _ => []

/-- Concatenation of the stringifications of a list of values. -/
def strConcat : List UcValue → String
  | [] => ""
  | v :: rest => toStr v ++ strConcat rest

/-- Print builtin (module registry, spec 4.6): stringify each argument
and append to the output buffer. -/
def doPrint (st : EvalState) (vs : List UcValue) : EvalState :=
  { st with out := st.out ++ strConcat vs }

/-- An evaluator work item: evaluate an expression, an expression list,
the field list of an object literal, a call to an (already evaluated)
closure with its argument values, a statement, a statement list, the
iteration of a three-clause for loop, or the iteration of a for-in loop
over the snapshot of the collection. -/
inductive Task where
  | expr (env : List Nat) (e : Expr)
  | exprs (env : List Nat) (es : List Expr)
  | fields (env : List Nat) (fes : List (String × Expr))
  | callF (clos : UcValue) (args : List UcValue)
  | stmt (env : List Nat) (s : Stmt)
  | stmts (env : List Nat) (ss : List Stmt)
  | lpC (env : List Nat) (cond : Option Expr) (step : Option Expr) (body : Stmt)
  | lpInStart (env : List Nat) (isLocal : Bool) (n : String) (v : UcValue) (body : Stmt)
  | lpIn (env : List Nat) (isLocal : Bool) (n : String) (items : List UcValue) (body : Stmt)

/-- Outcome of a work item: a value (for expression items), a value or
field list (for list items), or a statement outcome; `.ctl (.err m)`
doubles as the expression-error outcome. -/
inductive Out where
  | val (v : UcValue)
  | vals (vs : List UcValue)
  | flds (kvs : List (String × UcValue))
  | ctl (c : Ctl)

/-- Select the branch of an if statement: the then branch when the
condition is truthy, otherwise the else branch (an absent else branch
behaves as an empty block). -/
def pickBranch (b : Bool) (t : Stmt) (e : Option Stmt) : Stmt :=
  match b, e with
  | true, _ => t
  | false, some es => es
  | false, none => .block []

lemma one_le_sizeOf_Expr (e : Expr) : 1 ≤ sizeOf e := by
  cases e <;> simp_arith

lemma sizeOf_pickBranch (b : Bool) (c : Expr) (t : Stmt) (e : Option Stmt) :
    sizeOf (pickBranch b t e) < 1 + sizeOf c + sizeOf t + sizeOf e := by
  have hc : 1 ≤ sizeOf c := one_le_sizeOf_Expr c
  cases b <;> cases e <;> simp_arith [pickBranch] <;> omega

/-- Modelled from the spec (4.4, Evaluator): the tree-walking evaluator.
The fuel argument bounds call depth and loop iteration count; exhausting
it reports the spec's stack-depth-exceeded error class (spec 5 requires a
bounded depth with clean failure). -/
def interp (fuel : Nat) (t : Task) (st : EvalState) : EvalState × Out :=
  match t with
  | .expr env e =>
    match e with
    | .lit v => (st, .val v)
    | .ident n => (st, .val ((lookupVar st.heap env n).getD .null))
    | .arrLit es =>
      match interp fuel (.exprs env es) st with
      | (st1, .vals vs) => (st1, .val (.arr vs))
      | (st1, .val v) => (st1, .val v)
      | (st1, .flds kvs) => (st1, .flds kvs)
      | (st1, .ctl c) => (st1, .ctl c)
    | .objLit fes =>
      match interp fuel (.fields env fes) st with
      | (st1, .flds kvs) => (st1, .val (.obj kvs))
      | (st1, .val v) => (st1, .val v)
      | (st1, .vals vs) => (st1, .vals vs)
      | (st1, .ctl c) => (st1, .ctl c)
    | .funcExpr name params body => (st, .val (.func name params body env))
    | .unop op e1 =>
      match interp fuel (.expr env e1) st with
      | (st1, .val v) => (st1, .val (applyUnOp op v))
      | (st1, .vals vs) => (st1, .vals vs)
      | (st1, .flds kvs) => (st1, .flds kvs)
      | (st1, .ctl c) => (st1, .ctl c)
    | .binop op l r =>
      match interp fuel (.expr env l) st with
      | (st1, .val vl) =>
        match interp fuel (.expr env r) st1 with
        | (st2, .val vr) => (st2, .val (applyBinOp op vl vr))
        | (st2, .vals vs) => (st2, .vals vs)
        | (st2, .flds kvs) => (st2, .flds kvs)
        | (st2, .ctl c) => (st2, .ctl c)
      | (st1, .vals vs) => (st1, .vals vs)
      | (st1, .flds kvs) => (st1, .flds kvs)
      | (st1, .ctl c) => (st1, .ctl c)
    | .assign n e1 =>
      match interp fuel (.expr env e1) st with
      | (st1, .val v) => ({ st1 with heap := assignVar st1.heap env n v }, .val v)
      | (st1, .vals vs) => (st1, .vals vs)
      | (st1, .flds kvs) => (st1, .flds kvs)
      | (st1, .ctl c) => (st1, .ctl c)
    | .postIncr n =>
      let old := (lookupVar st.heap env n).getD .null
      let newv := numToVal (numAdd (toNumeric old) (.int 1))
      ({ st with heap := assignVar st.heap env n newv }, .val old)
    | .call f args =>
      match f with
      | .ident n =>
        match interp fuel (.exprs env args) st with
        | (st1, .vals vs) =>
          match lookupVar st1.heap env n with
          | some clos => interp fuel (.callF clos vs) st1
          | none =>
            match n with
            | "print" => (doPrint st1 vs, .val .null)
            | _ => (st1, .ctl (.err "not-callable"))
        | (st1, .val v) => (st1, .val v)
        | (st1, .flds kvs) => (st1, .flds kvs)
        | (st1, .ctl c) => (st1, .ctl c)
      | .lit fv =>
        match interp fuel (.exprs env args) st with
        | (st1, .vals vs) => interp fuel (.callF fv vs) st1
        | (st1, .val v) => (st1, .val v)
        | (st1, .flds kvs) => (st1, .flds kvs)
        | (st1, .ctl c) => (st1, .ctl c)
      | fe =>
        match interp fuel (.expr env fe) st with
        | (st1, .val clos) =>
          match interp fuel (.exprs env args) st1 with
          | (st2, .vals vs) => interp fuel (.callF clos vs) st2
          | (st2, .val v) => (st2, .val v)
          | (st2, .flds kvs) => (st2, .flds kvs)
          | (st2, .ctl c) => (st2, .ctl c)
        | (st1, .vals vs) => (st1, .vals vs)
        | (st1, .flds kvs) => (st1, .flds kvs)
        | (st1, .ctl c) => (st1, .ctl c)
  | .exprs env es =>
    match es with
    | [] => (st, .vals [])
    | e :: rest =>
      match interp fuel (.expr env e) st with
      | (st1, .val v) =>
        match interp fuel (.exprs env rest) st1 with
        | (st2, .vals vs) => (st2, .vals (v :: vs))
        | (st2, .val w) => (st2, .val w)
        | (st2, .flds kvs) => (st2, .flds kvs)
        | (st2, .ctl c) => (st2, .ctl c)
      | (st1, .vals vs) => (st1, .vals vs)
      | (st1, .flds kvs) => (st1, .flds kvs)
      | (st1, .ctl c) => (st1, .ctl c)
  | .fields env fes =>
    match fes with
    | [] => (st, .flds [])
    | (k, e) :: rest =>
      match interp fuel (.expr env e) st with
      | (st1, .val v) =>
        match interp fuel (.fields env rest) st1 with
        | (st2, .flds kvs) => (st2, .flds ((k, v) :: kvs))
        | (st2, .val w) => (st2, .val w)
        | (st2, .vals vs) => (st2, .vals vs)
        | (st2, .ctl c) => (st2, .ctl c)
      | (st1, .vals vs) => (st1, .vals vs)
      | (st1, .flds kvs) => (st1, .flds kvs)
      | (st1, .ctl c) => (st1, .ctl c)
  | .callF clos args =>
    match clos with
    | .func _ params body cenv =>
      match fuel with
      | 0 => (st, .ctl (.err "stack-depth exceeded"))
      | g + 1 =>
        let fid := st.heap.length
        let st1 : EvalState := { st with heap := st.heap ++ [bindParams params args] }
        match interp g (.stmts (fid :: cenv) body) st1 with
        | (st2, .ctl (.ret v)) => (st2, .val v)
        | (st2, .ctl .normal) => (st2, .val .null)
        | (st2, .ctl (.err m)) => (st2, .ctl (.err m))
        | (st2, .ctl .brk) => (st2, .ctl (.err "control-flow-misuse"))
        | (st2, .ctl .cont) => (st2, .ctl (.err "control-flow-misuse"))
        | (st2, .val v) => (st2, .val v)
        | (st2, .vals vs) => (st2, .vals vs)
        | (st2, .flds kvs) => (st2, .flds kvs)
    | _ => (st, .ctl (.err "not-callable"))
  | .stmt env s =>
    match s with
    | .exprStmt e =>
      match interp fuel (.expr env e) st with
      | (st1, .val _) => (st1, .ctl .normal)
      | (st1, .vals vs) => (st1, .vals vs)
      | (st1, .flds kvs) => (st1, .flds kvs)
      | (st1, .ctl c) => (st1, .ctl c)
    | .block ss => interp fuel (.stmts env ss) st
    | .ifS c t e =>
      match interp fuel (.expr env c) st with
      | (st1, .val v) => interp fuel (.stmt env (pickBranch (truthy v) t e)) st1
      | (st1, .vals vs) => (st1, .vals vs)
      | (st1, .flds kvs) => (st1, .flds kvs)
      | (st1, .ctl c) => (st1, .ctl c)
    | .forC init cond step body =>
      match init with
      | some i =>
        match interp fuel (.stmt env i) st with
        | (st1, .ctl .normal) => interp fuel (.lpC env cond step body) st1
        | (st1, .ctl .brk) => (st1, .ctl .brk)
        | (st1, .ctl .cont) => (st1, .ctl .cont)
        | (st1, .ctl (.ret v)) => (st1, .ctl (.ret v))
        | (st1, .ctl (.err m)) => (st1, .ctl (.err m))
        | (st1, .val v) => (st1, .val v)
        | (st1, .vals vs) => (st1, .vals vs)
        | (st1, .flds kvs) => (st1, .flds kvs)
      | none => interp fuel (.lpC env cond step body) st
    | .forIn isLocal n coll body =>
      match interp fuel (.expr env coll) st with
      | (st1, .val v) => interp fuel (.lpInStart env isLocal n v body) st1
      | (st1, .vals vs) => (st1, .vals vs)
      | (st1, .flds kvs) => (st1, .flds kvs)
      | (st1, .ctl c) => (st1, .ctl c)
    | .funcDecl n params body =>
      ({ st with heap := declareLocal st.heap env n (.func (some n) params body env) },
        .ctl .normal)
    | .ret e =>
      match e with
      | some e1 =>
        match interp fuel (.expr env e1) st with
        | (st1, .val v) => (st1, .ctl (.ret v))
        | (st1, .vals vs) => (st1, .vals vs)
        | (st1, .flds kvs) => (st1, .flds kvs)
        | (st1, .ctl c) => (st1, .ctl c)
      | none => (st, .ctl (.ret .null))
    | .brk => (st, .ctl .brk)
    | .cont => (st, .ctl .cont)
    | .localDecl n e =>
      match interp fuel (.expr env e) st with
      | (st1, .val v) => ({ st1 with heap := declareLocal st1.heap env n v }, .ctl .normal)
      | (st1, .vals vs) => (st1, .vals vs)
      | (st1, .flds kvs) => (st1, .flds kvs)
      | (st1, .ctl c) => (st1, .ctl c)
  | .stmts env ss =>
    match ss with
    | [] => (st, .ctl .normal)
    | s :: rest =>
      match interp fuel (.stmt env s) st with
      | (st1, .ctl .normal) => interp fuel (.stmts env rest) st1
      | (st1, .ctl .brk) => (st1, .ctl .brk)
      | (st1, .ctl .cont) => (st1, .ctl .cont)
      | (st1, .ctl (.ret v)) => (st1, .ctl (.ret v))
      | (st1, .ctl (.err m)) => (st1, .ctl (.err m))
      | (st1, .val v) => (st1, .val v)
      | (st1, .vals vs) => (st1, .vals vs)
      | (st1, .flds kvs) => (st1, .flds kvs)
  | .lpC env cond step body =>
    match fuel with
    | 0 => (st, .ctl (.err "stack-depth exceeded"))
    | g + 1 =>
      let condRes : EvalState × Out :=
        match cond with
        | some c => interp g (.expr env c) st
        | none => (st, .val (.bool true))
      match condRes with
      | (st1, .val cv) =>
        match truthy cv with
        | false => (st1, .ctl .normal)
        | true =>
          match interp g (.stmt env body) st1 with
          | (st2, .ctl .normal) =>
            match step with
            | some se =>
              match interp g (.expr env se) st2 with
              | (st3, .val _) => interp g (.lpC env cond step body) st3
              | (st3, .vals vs) => (st3, .vals vs)
              | (st3, .flds kvs) => (st3, .flds kvs)
              | (st3, .ctl c) => (st3, .ctl c)
            | none => interp g (.lpC env cond step body) st2
          | (st2, .ctl .cont) =>
            match step with
            | some se =>
              match interp g (.expr env se) st2 with
              | (st3, .val _) => interp g (.lpC env cond step body) st3
              | (st3, .vals vs) => (st3, .vals vs)
              | (st3, .flds kvs) => (st3, .flds kvs)
              | (st3, .ctl c) => (st3, .ctl c)
            | none => interp g (.lpC env cond step body) st2
          | (st2, .ctl .brk) => (st2, .ctl .normal)
          | (st2, .ctl (.ret v)) => (st2, .ctl (.ret v))
          | (st2, .ctl (.err m)) => (st2, .ctl (.err m))
          | (st2, .val v) => (st2, .val v)
          | (st2, .vals vs) => (st2, .vals vs)
          | (st2, .flds kvs) => (st2, .flds kvs)
      | (st1, .vals vs) => (st1, .vals vs)
      | (st1, .flds kvs) => (st1, .flds kvs)
      | (st1, .ctl c) => (st1, .ctl c)
  | .lpInStart env isLocal n v body =>
    match fuel with
    | 0 => (st, .ctl (.err "stack-depth exceeded"))
    | g + 1 => interp g (.lpIn env isLocal n (enumList v) body) st
  | .lpIn env isLocal n items body =>
    match items with
    | [] => (st, .ctl .normal)
    | it :: rest =>
      let st1 : EvalState :=
        { st with heap := if isLocal then declareLocal st.heap env n it
                          else assignVar st.heap env n it }
      match interp fuel (.stmt env body) st1 with
      | (st2, .ctl .normal) => interp fuel (.lpIn env isLocal n rest body) st2
      | (st2, .ctl .cont) => interp fuel (.lpIn env isLocal n rest body) st2
      | (st2, .ctl .brk) => (st2, .ctl .normal)
      | (st2, .ctl (.ret v)) => (st2, .ctl (.ret v))
      | (st2, .ctl (.err m)) => (st2, .ctl (.err m))
      | (st2, .val v) => (st2, .val v)
      | (st2, .vals vs) => (st2, .vals vs)
      | (st2, .flds kvs) => (st2, .flds kvs)
termination_by
  (fuel,
    match t with
    | .expr _ e => sizeOf e
    | .exprs _ es => sizeOf es
    | .fields _ fes => sizeOf fes
    | .callF _ _ => 0
    | .stmt _ s => sizeOf s
    | .stmts _ ss => sizeOf ss
    | .lpC _ _ _ _ => 1
    | .lpInStart _ _ _ _ _ => 1
    | .lpIn _ _ _ items body => sizeOf body + items.length + 1)
decreasing_by
  all_goals
    first
      | decreasing_tactic
      | (simp_wf
         exact Prod.Lex.right _ (sizeOf_pickBranch _ _ _ _))

/-- Expression evaluation (wrapper around the evaluator). -/
def evalExpr (fuel : Nat) (env : List Nat) (e : Expr) (st : EvalState) :
    EvalState × Out :=
  interp fuel (.expr env e) st

/-- Statement execution (wrapper around the evaluator). -/
def execStmt (fuel : Nat) (env : List Nat) (s : Stmt) (st : EvalState) :
    EvalState × Out :=
  interp fuel (.stmt env s) st

/-- Statement-list execution (wrapper around the evaluator). -/
def execStmts (fuel : Nat) (env : List Nat) (ss : List Stmt) (st : EvalState) :
    EvalState × Out :=
  interp fuel (.stmts env ss) st

/-- Run a program (a statement list) in a fresh global scope. -/
def runProg (fuel : Nat) (ss : List Stmt) : EvalState × Out :=
  execStmts fuel [0] ss { heap := [[]], out := "" }

/-! ## Test-fixture programs

ASTs of the testcases the claims cite (`src/tests/00_syntax/16_for_loop`,
`src/unnamed/part_002`). -/

def printE (args : List Expr) : Expr := .call (.ident "print") args

/-- `i = 0`, the init clause of the counting loops of the for-loop
fixture. -/
def iterInit : Stmt := .exprStmt (.assign "i" (.lit (.i64 0)))

/-- `i < 10`, the test clause of the counting loops. -/
def iterCond : Expr := .binop .lt (.ident "i") (.lit (.i64 10))

/-- The brace-delimited loop body of the first counting loop of the
fixture: three print statements. -/
def bracedBody : Stmt :=
  .block [ .exprStmt (printE [.lit (.str "Iteration ")]),
           .exprStmt (printE [.ident "i"]),
           .exprStmt (printE [.lit (.str "\n")]) ]

/-- The brace-less single-statement body of the second counting loop:
one print call with three arguments. -/
def bracelessBody : Stmt :=
  .exprStmt (printE [.lit (.str "Iteration "), .ident "i", .lit (.str "\n")])

def forLoopBraced : Stmt := .forC (some iterInit) (some iterCond) (some (.postIncr "i")) bracedBody

def forLoopBraceless : Stmt :=
  .forC (some iterInit) (some iterCond) (some (.postIncr "i")) bracelessBody

/-- A for-in loop body printing a fixed prefix, the loop variable and a
newline. -/
def varPrintBody (pre vn : String) : Stmt :=
  .exprStmt (printE [.lit (.str pre), .ident vn, .lit (.str "\n")])

/-- The for-in-over-object testcase of the for-loop fixture:
`obj = { foo: true, bar: false }; for (key in obj) print("Key: ", key, "\n");` -/
def forInObjProg : List Stmt :=
  [ .exprStmt (.assign "obj" (.objLit [("foo", .lit (.bool true)), ("bar", .lit (.bool false))])),
    .forIn false "key" (.ident "obj") (varPrintBody "Key: " "key") ]

/-- The for-in-over-array testcase:
`arr = [ "one", "two", "three" ]; for (item in arr) print("Item: ", item, "\n");` -/
def forInArrProg : List Stmt :=
  [ .exprStmt (.assign "arr" (.arrLit [.lit (.str "one"), .lit (.str "two"), .lit (.str "three")])),
    .forIn false "item" (.ident "arr") (varPrintBody "Item: " "item") ]

/-- The output of a `varPrintBody` for-in loop over a list of visited
values, in visit order. -/
def printOuts (pre : String) : List UcValue → String
  | [] => ""
  | v :: rest => pre ++ toStr v ++ "\n" ++ printOuts pre rest

/-- The expected for-in output over an object: one `Key: <key>` line per
key, in insertion order. -/
def keysOut : List (String × UcValue) → String
  | [] => ""
  | kv :: rest => "Key: " ++ kv.1 ++ "\n" ++ keysOut rest

/-- The expected for-in output over an array: one `Item: <item>` line
per item, in index order. -/
def itemsOut : List UcValue → String
  | [] => ""
  | v :: rest => "Item: " ++ toStr v ++ "\n" ++ itemsOut rest

/-- Body of the nested `test3_fn(a, b) { return a * b; }` of the
function fixture. -/
def test3Body : List Stmt := [.ret (some (.binop .mul (.ident "a") (.ident "b")))]

/-- Body of `test2_fn(a, b)`: declare the nested `test3_fn`, then
`return a + test3_fn(a, b);`. -/
def test2Body : List Stmt :=
  [ .funcDecl "test3_fn" ["a", "b"] test3Body,
    .ret (some (.binop .add (.ident "a") (.call (.ident "test3_fn") [.ident "a", .ident "b"]))) ]

def test2Decl : Stmt := .funcDecl "test2_fn" ["a", "b"] test2Body

/-- The output of `c` iterations of a loop whose body emits `emit k` at
counter value `k`, counting upward. -/
def emitRange (emit : Int → String) : Int → Nat → String
  | _, 0 => ""
  | k, c + 1 => emit k ++ emitRange emit (k + 1) c

/-- The per-iteration output of the counting-loop testcases. -/
def iterEmit (k : Int) : String := "Iteration " ++ (intStr k ++ "\n")

/-! ## The yaml module (`src/lib/yaml.c`)

Shallow embedding of the module-local logic of `src/lib/yaml.c`: the
scalar parsing and string-quoting decisions, the argument check of
`uc_yaml_parse`, and the `last_error` slot with its `uc_yaml_error`
accessor.  The libyaml event machinery itself is an external library;
a double-quoted scalar is assumed to transit libyaml with its content
and style intact, and the full-document parsing of a well-formed string
input is abstracted as a parameter. -/

def lowerAscii (s : String) : String := String.mk (s.data.map Char.toLower)

/-- `strcasecmp(a, b) == 0` for an ASCII keyword `b`. -/
def caseEq (a b : String) : Bool := lowerAscii a = lowerAscii b

def isSpaceC (c : Char) : Bool :=
  c = ' ' || c = '\t' || c = '\n' || c = '\r' || c = '\x0b' || c = '\x0c'

def allOct (cs : List Char) : Bool := cs.all isOctDig

def allDec (cs : List Char) : Bool := cs.all isDig

def allHex (cs : List Char) : Bool := cs.all isHexDig

/-- `strtoll(value, &endptr, 0)` with the requirement `*endptr == 0` and
`endptr != value`: the whole string is one integer token (leading
whitespace, optional sign, then a hexadecimal `0x`, octal leading-`0` or
decimal form). -/
def strtollFull (s : String) : Option Int :=
  let cs := (s.data).dropWhile isSpaceC
  let core : List Char → Option Nat := fun cs1 =>
    match cs1 with
    | '0' :: 'x' :: r => if r.isEmpty || !allHex r then none else some (digitsVal 16 r)
    | '0' :: 'X' :: r => if r.isEmpty || !allHex r then none else some (digitsVal 16 r)
    | '0' :: r => if allOct r then some (digitsVal 8 r) else none
    | _ => if cs1.isEmpty || !allDec cs1 then none else some (digitsVal 10 cs1)
  match cs with
  | '+' :: r => (core r).map (fun n => (n : Int))
  | '-' :: r => (core r).map (fun n => -(n : Int))
  | _ => (core cs).map (fun n => (n : Int))

/-- `strtod(value, &endptr)` with the requirement `*endptr == 0` and
`endptr != value`: the whole string is one floating token (leading
whitespace, optional sign, then a decimal form with optional fraction
and exponent, a hexadecimal form, or an infinity/nan word). -/
def strtodFull (s : String) : Option UDouble :=
  let cs := (s.data).dropWhile isSpaceC
  let neg : Bool := match cs with | '-' :: _ => true | _ => false
  let cs1 : List Char :=
    match cs with
    | '+' :: r => r
    | '-' :: r => r
    | _ => cs
  let withSign : UDouble → UDouble := fun d => if neg then dNeg d else d
  let low := String.mk (cs1.map Char.toLower)
  if low = "inf" || low = "infinity" then some (withSign (.inf true))
  else if low = "nan" then some (withSign .nan)
  else
    match cs1 with
    | '0' :: 'x' :: r =>
      if r.isEmpty || !allHex r then none
      else some (withSign (mkFin (digitsVal 16 r) 1))
    | '0' :: 'X' :: r =>
      if r.isEmpty || !allHex r then none
      else some (withSign (mkFin (digitsVal 16 r) 1))
    | _ =>
      let ds := cs1.takeWhile isDig
      let r1 := cs1.dropWhile isDig
      let mk : List Char → List Char → Int → Option UDouble := fun ips fps ex =>
        let mant : Int := (digitsVal 10 (ips ++ fps) : Nat)
        if 0 ≤ ex then
          some (withSign (mkFin (mant * ((10 : Int) ^ ex.natAbs)) (10 ^ fps.length)))
        else some (withSign (mkFin mant (10 ^ fps.length * 10 ^ ex.natAbs)))
      let expFull : List Char → Option Int := fun r =>
        match r with
        | [] => some 0
        | 'e' :: '+' :: r2 => if r2.isEmpty || !allDec r2 then none else some (digitsVal 10 r2 : Nat)
        | 'E' :: '+' :: r2 => if r2.isEmpty || !allDec r2 then none else some (digitsVal 10 r2 : Nat)
        | 'e' :: '-' :: r2 =>
          if r2.isEmpty || !allDec r2 then none else some (-((digitsVal 10 r2 : Nat) : Int))
        | 'E' :: '-' :: r2 =>
          if r2.isEmpty || !allDec r2 then none else some (-((digitsVal 10 r2 : Nat) : Int))
        | 'e' :: r2 => if r2.isEmpty || !allDec r2 then none else some (digitsVal 10 r2 : Nat)
        | 'E' :: r2 => if r2.isEmpty || !allDec r2 then none else some (digitsVal 10 r2 : Nat)
        | _ => none
      match r1 with
      | '.' :: r2 =>
        let fs := r2.takeWhile isDig
        let r3 := r2.dropWhile isDig
        if ds.isEmpty && fs.isEmpty then none
        else
          match expFull r3 with
          | some ex => mk ds fs ex
          | none => none
      | r =>
        if ds.isEmpty then none
        else
          match expFull r with
          | some ex => mk ds [] ex
          | none => none

/-- libyaml scalar styles relevant to this module. -/
inductive YStyle where
  | plain
  | singleQuoted
  | doubleQuoted
deriving DecidableEq, Repr

def YAML_NULL_TAG : String := "tag:yaml.org,2002:null"
def YAML_BOOL_TAG : String := "tag:yaml.org,2002:bool"
def YAML_INT_TAG : String := "tag:yaml.org,2002:int"
def YAML_FLOAT_TAG : String := "tag:yaml.org,2002:float"
def YAML_STR_TAG : String := "tag:yaml.org,2002:str"

def isTrueWord (v : String) : Bool := caseEq v "true" || caseEq v "yes" || caseEq v "on"

def isFalseWord (v : String) : Bool := caseEq v "false" || caseEq v "no" || caseEq v "off"

/-- The untagged portion of `parse_yaml_scalar` (yaml.c lines 81-131):
quoted scalars are always strings; then the null, boolean, special-float,
YAML 1.1 octal, integer and float checks; everything else is a string. -/
def parse_yaml_untagged (style : YStyle) (value : String) : UcValue :=
  if style = .singleQuoted || style = .doubleQuoted then .str value
  else if value.length = 0 || value = "~" || caseEq value "null" then .null
  else if isTrueWord value then .bool true
  else if isFalseWord value then .bool false
  else if caseEq value ".inf" || caseEq value "+.inf" then .dbl (.inf true)
  else if caseEq value "-.inf" then .dbl (.inf false)
  else if caseEq value ".nan" then .dbl .nan
  else
    let oct : Option Int :=
      match value.data with
      | '0' :: 'o' :: r => if !r.isEmpty && allOct r then some (digitsVal 8 r : Nat) else none
      | '0' :: 'O' :: r => if !r.isEmpty && allOct r then some (digitsVal 8 r : Nat) else none
      | _ => none
    match oct with
    | some n => .i64 n
    | none =>
      match strtollFull value with
      | some n => .i64 n
      | none =>
        match strtodFull value with
        | some d => .dbl d
        | none => .str value

/-- `parse_yaml_scalar` of yaml.c: tagged scalars first (a failed
tagged numeric parse falls through to the untagged logic), then the
untagged logic. -/
def parse_yaml_scalar (tag : Option String) (style : YStyle) (value : String) : UcValue :=
  match tag with
  | some tg =>
    if tg = YAML_NULL_TAG then .null
    else if tg = YAML_BOOL_TAG then .bool (isTrueWord value)
    else if tg = YAML_INT_TAG && (strtollFull value).isSome then
      .i64 ((strtollFull value).getD 0)
    else if tg = YAML_FLOAT_TAG && (strtodFull value).isSome then
      .dbl ((strtodFull value).getD .nan)
    else if tg = YAML_STR_TAG then .str value
    else parse_yaml_untagged style value
  | none => parse_yaml_untagged style value

/-- The scalar style chosen by the emitter. -/
inductive EmitStyle where
  | anyStyle
  | doubleQuoted
deriving DecidableEq, Repr

/-- The keyword list of `emit_yaml_value`'s string case (yaml.c lines
443-454). -/
def yamlKeywordList : List String :=
  ["true", "false", "yes", "no", "on", "off", "null", "~", ".inf", "-.inf", ".nan"]

/-- The scalar style `emit_yaml_value` chooses for a UC_STRING value
(yaml.c lines 438-464): double-quoted for the empty string, for the
boolean/null/special-float keywords, and for strings that parse
completely under `strtod`; any (emitter-chosen) style otherwise. -/
def emit_string_style (s : String) : EmitStyle :=
  if s.length = 0 || yamlKeywordList.any (fun k => caseEq s k) then .doubleQuoted
  else if (strtodFull s).isSome then .doubleQuoted
  else .anyStyle

/-- errno values used by the module. -/
def EINVAL : Nat := 22

/-- glibc `strerror` for the errno values the module can record. -/
def strerror (e : Nat) : String :=
  if e = 22 then "Invalid argument"
  else if e = 12 then "Cannot allocate memory"
  else "Unknown error"

def isUcString : UcValue → Bool
  | .str _ => true
  | _ => false

/-- `uc_yaml_parse` at the module boundary: a non-string argument records
EINVAL in the module's `last_error` slot and yields NULL (yaml.c lines
275-276); for a string argument the libyaml document parse is the
abstracted `pf`, and the error slot is left untouched. -/
def uc_yaml_parse (pf : String → Option UcValue) (arg : UcValue) (lastErr : Nat) :
    Option UcValue × Nat :=
  match arg with
  | .str s => (pf s, lastErr)
  | _ => (none, EINVAL)

/-- `uc_yaml_error` (yaml.c lines 594-605): NULL when no error is
recorded; otherwise the `strerror` description, clearing the slot. -/
def uc_yaml_error (lastErr : Nat) : Option UcValue × Nat :=
  if lastErr = 0 then (none, lastErr)
  else (some (.str (strerror lastErr)), 0)

/-- The closure value bound by the fixture's `test2_fn` declaration in
the global frame 0. -/
def test2Clos : UcValue := .func (some "test2_fn") ["a", "b"] test2Body [0]

/-- The closure value bound by the nested `test3_fn` declaration inside
a `test2_fn` call frame (frame 1 over the global frame 0). -/
def test3Clos : UcValue := .func (some "test3_fn") ["a", "b"] test3Body [1, 0]

/-- The heap right after entering `test2_fn(a, b)`. -/
def c8H1 (a b : Int) : List Frame :=
  [[("test2_fn", test2Clos)], [("a", .i64 a), ("b", .i64 b)]]

/-- The heap after the nested `test3_fn` declaration executed. -/
def c8H2 (a b : Int) : List Frame :=
  [[("test2_fn", test2Clos)], [("a", .i64 a), ("b", .i64 b), ("test3_fn", test3Clos)]]

/-- The heap after entering the nested `test3_fn(a, b)` call. -/
def c8H3 (a b : Int) : List Frame :=
  c8H2 a b ++ [[("a", .i64 a), ("b", .i64 b)]]

/-- The spec's `numeric_coerce` table, stated from the spec's words
(section 8: `true` to 1, `false` to 0, `null` to 0, arrays, objects and
functions to NaN), for comparison with the implementation-side coercion:
numeric and string values pass through unchanged. -/
def numeric_coerce : UcValue → UcValue
  | .bool true => .i64 1
  | .bool false => .i64 0
  | .null => .i64 0
  | .arr _ => .dbl .nan
  | .obj _ => .dbl .nan
  | .func _ _ _ _ => .dbl .nan
  | v => v

/-- A value of non-string, non-numeric type: null, boolean, array,
object or function. -/
def isNonStrNum : UcValue → Bool
  | .null => true
  | .bool _ => true
  | .arr _ => true
  | .obj _ => true
  | .func _ _ _ _ => true
  | _ => false

/-! ## Claim theorems: coercion and arithmetic (C1-C5) -/

/-- C1: for every non-string, non-numeric value `v`, `123 + v` equals
`123 + numeric_coerce(v)` (true to 1, false to 0, null to 0,
array/object/function to NaN), with `123 + true == 124`,
`123 + false == 123`, `123 + null == 123`, NaN for object, array and
function operands and `123 + Infinity == Infinity`; and an addition of
an Int64 and a Double yields a Double (`1.2 + 3 == 4.2`,
`4 + 5.6 == 9.6`). -/
theorem claim1_add_numeric_coercion :
    (∀ v : UcValue, isNonStrNum v = true →
      ucAdd (.i64 123) v = ucAdd (.i64 123) (numeric_coerce v)) ∧
    ucAdd (.i64 123) (.bool true) = .i64 124 ∧
    ucAdd (.i64 123) (.bool false) = .i64 123 ∧
    ucAdd (.i64 123) .null = .i64 123 ∧
    ucAdd (.i64 123) (.obj [("some", .str "object")]) = .dbl .nan ∧
    ucAdd (.i64 123) (.arr [.str "some", .str "array"]) = .dbl .nan ∧
    ucAdd (.i64 123) (.func none [] [] []) = .dbl .nan ∧
    ucAdd (.i64 123) (.dbl (.inf true)) = .dbl (.inf true) ∧
    (∀ (n : Int) (d : UDouble),
      ucAdd (.i64 n) (.dbl d) = .dbl (dAdd (.fin n 1) d) ∧
      ucAdd (.dbl d) (.i64 n) = .dbl (dAdd d (.fin n 1))) ∧
    ucAdd (.dbl (mkFin 12 10)) (.i64 3) = .dbl (mkFin 42 10) ∧
    ucAdd (.i64 4) (.dbl (mkFin 56 10)) = .dbl (mkFin 96 10) := by
  refine ⟨?_, rfl, rfl, rfl, rfl, rfl, rfl, rfl, ?_, rfl, rfl⟩
  · intro v hv
    cases v with
    | bool b => cases b <;> rfl
    | null => rfl
    | arr xs => rfl
    | obj kvs => rfl
    | func name params body env => rfl
    | i64 n => simp [isNonStrNum] at hv
    | dbl d => simp [isNonStrNum] at hv
    | str s => simp [isNonStrNum] at hv
  · intro n d
    exact ⟨rfl, rfl⟩

/-- Witness for C1 at `v = true`. -/
theorem claim1_add_numeric_coercion_witness :
    ucAdd (.i64 123) (.bool true) = ucAdd (.i64 123) (numeric_coerce (.bool true)) :=
  claim1_add_numeric_coercion.1 (.bool true) rfl

/-- C2: unary `+` on a string parses a leading numeric token:
`+"123"` is the Int64 123, `+"12.3"` is the Double 12.3, and a string
with no valid leading numeric token coerces to NaN; unary `-` negates
the same coercion. -/
theorem claim2_unary_string_coercion :
    uPlus (.str "123") = .i64 123 ∧
    uPlus (.str "12.3") = .dbl (.fin 123 10) ∧
    uMinus (.str "123") = .i64 (-123) ∧
    uMinus (.str "12.3") = .dbl (.fin (-123) 10) ∧
    uPlus (.str "this is not a number") = .dbl .nan ∧
    uMinus (.str "this is not a number") = .dbl .nan ∧
    (∀ s : String, scanNum s.data = none →
      uPlus (.str s) = .dbl .nan ∧ uMinus (.str s) = .dbl .nan) := by
  refine ⟨rfl, rfl, rfl, rfl, rfl, rfl, ?_⟩
  intro s h
  constructor
  · simp [uPlus, toNumeric, strToNum, h, numToVal]
  · simp [uMinus, toNumeric, strToNum, h, numNeg, dNeg, numToVal]

/-- Witness for C2 at the fixture's non-numeric string. -/
theorem claim2_unary_string_coercion_witness :
    scanNum ("this is not a number").data = none ∧
    uPlus (.str "this is not a number") = .dbl .nan :=
  ⟨rfl, (claim2_unary_string_coercion.2.2.2.2.2.2 "this is not a number" rfl).1⟩

/-- C3: every bitwise operator converts each operand to a signed 64-bit
integer (truncating doubles toward zero) and returns an Int64:
`~0 == -1`, `~10.4 == -11`, `10 << 2 == 40`, `3.3 << 4.1 == 48`,
`10 >> 2 == 2`, `3.3 >> 4.1 == 0`, `120.3 & 54.3 == 48`,
`120.3 ^ 54.3 == 78`, `120.3 | 54.3 == 126`. -/
theorem claim3_bitwise_int64 :
    (∀ v w : UcValue,
      ucShl v w = .i64 (fromU64 ((toU64 (toInt64 v) <<< shAmt w) % 2 ^ 64)) ∧
      ucShr v w = .i64 (Int.fdiv (toInt64 v) ((2 : Int) ^ shAmt w)) ∧
      ucAnd v w = .i64 (fromU64 (Nat.land (toU64 (toInt64 v)) (toU64 (toInt64 w)))) ∧
      ucXor v w = .i64 (fromU64 (Nat.xor (toU64 (toInt64 v)) (toU64 (toInt64 w)))) ∧
      ucOr v w = .i64 (fromU64 (Nat.lor (toU64 (toInt64 v)) (toU64 (toInt64 w)))) ∧
      ucNot v = .i64 (fromU64 (Nat.xor (toU64 (toInt64 v)) (2 ^ 64 - 1)))) ∧
    toInt64 (.dbl (mkFin 104 10)) = 10 ∧
    toInt64 (.dbl (mkFin (-104) 10)) = -10 ∧
    ucNot (.i64 0) = .i64 (-1) ∧
    ucNot (.dbl (mkFin 104 10)) = .i64 (-11) ∧
    ucShl (.i64 10) (.i64 2) = .i64 40 ∧
    ucShl (.dbl (mkFin 33 10)) (.dbl (mkFin 41 10)) = .i64 48 ∧
    ucShr (.i64 10) (.i64 2) = .i64 2 ∧
    ucShr (.dbl (mkFin 33 10)) (.dbl (mkFin 41 10)) = .i64 0 ∧
    ucAnd (.dbl (mkFin 1203 10)) (.dbl (mkFin 543 10)) = .i64 48 ∧
    ucXor (.dbl (mkFin 1203 10)) (.dbl (mkFin 543 10)) = .i64 78 ∧
    ucOr (.dbl (mkFin 1203 10)) (.dbl (mkFin 543 10)) = .i64 126 :=
  ⟨fun _ _ => ⟨rfl, rfl, rfl, rfl, rfl, rfl⟩,
    rfl, rfl, rfl, rfl, rfl, rfl, rfl, rfl, rfl, rfl, rfl⟩

/-- C4: if either operand of `+` is a string, both operands are
stringified and concatenated; `"" + s == s` for every string `s`, and
in this context null renders as `"null"`, booleans as `"true"`/`"false"`,
`1.2` as `"1.2"`, positive infinity as `"Infinity"`, and objects, arrays
and functions by their literal renderings. -/
theorem claim4_string_concat :
    (∀ v w : UcValue, (isStr v || isStr w) = true →
      ucAdd v w = .str (toStr v ++ toStr w)) ∧
    (∀ s : String, ucAdd (.str "") (.str s) = .str s) ∧
    ucAdd (.str "") .null = .str "null" ∧
    ucAdd (.str "") (.bool true) = .str "true" ∧
    ucAdd (.str "") (.bool false) = .str "false" ∧
    ucAdd (.str "") (.dbl (mkFin 12 10)) = .str "1.2" ∧
    ucAdd (.str "") (.dbl (.inf true)) = .str "Infinity" ∧
    ucAdd (.str "") (.obj [("some", .str "object")]) = .str "\x7b \"some\": \"object\" \x7d" ∧
    ucAdd (.str "") (.arr [.str "some", .str "array"]) = .str "[ \"some\", \"array\" ]" ∧
    ucAdd (.str "") (.func none [] [] []) = .str "function() \x7b ... \x7d" := by
  refine ⟨?_, ?_, rfl, rfl, rfl, ?_, rfl, ?_, ?_, rfl⟩
  · intro v w h
    simp [ucAdd, h]
  · intro s
    obtain ⟨l⟩ := s
    rfl
  · simp [ucAdd, isStr, toStr, jsonStr]
    rfl
  · simp [ucAdd, isStr, toStr, jsonStr, jsonFieldsStr]
  · simp [ucAdd, isStr, toStr, jsonStr, jsonListStr]

/-- Witness for C4: a string plus a number concatenates. -/
theorem claim4_string_concat_witness :
    ucAdd (.str "1") (.i64 2) = .str (toStr (.str "1") ++ toStr (.i64 2)) :=
  claim4_string_concat.1 (.str "1") (.i64 2) rfl

/-- C5: division by zero on numeric operands is not an error: it yields
signed Infinity (NaN for `0 / 0`); `1 / 0` is positive Infinity,
`-(1 / 0)` is `-Infinity`, they stringify as `"Infinity"` and
`"-Infinity"`, and `123 + (1 / 0) == Infinity`. -/
theorem claim5_div_zero :
    (∀ a : Int, ucDiv (.i64 a) (.i64 0) =
      .dbl (if a = 0 then UDouble.nan else .inf (0 < a))) ∧
    ucDiv (.i64 1) (.i64 0) = .dbl (.inf true) ∧
    uMinus (ucDiv (.i64 1) (.i64 0)) = .dbl (.inf false) ∧
    toStr (.dbl (.inf true)) = "Infinity" ∧
    toStr (.dbl (.inf false)) = "-Infinity" ∧
    ucAdd (.i64 123) (ucDiv (.i64 1) (.i64 0)) = .dbl (.inf true) ∧
    ucDiv (.i64 0) (.i64 0) = .dbl .nan := by
  refine ⟨?_, rfl, rfl, rfl, rfl, rfl, rfl⟩
  intro a
  simp [ucDiv, toNumeric, numDiv, numToVal]

/-! ## Claim theorems: the yaml module (C9-C10) -/

/-- C9: `yaml.parse` on a non-string argument returns null and records
EINVAL in the module's last-error slot; `yaml.error()` then returns the
error description and clears the slot, so an immediately following
second `yaml.error()` returns null, and `yaml.error()` returns null when
no error has occurred. -/
theorem claim9_yaml_error_slot :
    (∀ (pf : String → Option UcValue) (v : UcValue) (e : Nat),
      isUcString v = false → uc_yaml_parse pf v e = (none, EINVAL)) ∧
    uc_yaml_error EINVAL = (some (.str "Invalid argument"), 0) ∧
    uc_yaml_error 0 = (none, 0) ∧
    (∀ (pf : String → Option UcValue) (v : UcValue) (e : Nat),
      isUcString v = false →
      (uc_yaml_error (uc_yaml_parse pf v e).2).1 = some (.str (strerror EINVAL)) ∧
      (uc_yaml_error (uc_yaml_error (uc_yaml_parse pf v e).2).2).1 = none) := by
  refine ⟨?_, rfl, rfl, ?_⟩
  · intro pf v e hv
    cases v <;> first | rfl | simp [isUcString] at hv
  · intro pf v e hv
    cases v <;> first | exact ⟨rfl, rfl⟩ | simp [isUcString] at hv

/-- Witness for C9 at an integer argument. -/
theorem claim9_yaml_error_slot_witness :
    uc_yaml_parse (fun _ => none) (.i64 1) 0 = (none, EINVAL) ∧
    (uc_yaml_error (uc_yaml_parse (fun _ => none) (.i64 1) 0).2).1 =
      some (.str (strerror EINVAL)) :=
  ⟨claim9_yaml_error_slot.1 (fun _ => none) (.i64 1) 0 rfl,
    (claim9_yaml_error_slot.2.2.2 (fun _ => none) (.i64 1) 0 rfl).1⟩

/-- C10: a string that is empty, case-insensitively equal to one of the
boolean/null/special-float keywords, or that parses completely as a
number, is emitted by `yaml.stringify` in double-quoted scalar style,
and `yaml.parse` returns a quoted scalar as a string unconditionally, so
the round trip yields the string itself. -/
theorem claim10_yaml_string_round_trip :
    ∀ s : String,
      (s.length = 0 ∨ (yamlKeywordList.any (fun k => caseEq s k)) = true ∨
        (strtodFull s).isSome = true) →
      emit_string_style s = .doubleQuoted ∧
      parse_yaml_scalar none .doubleQuoted s = .str s := by
  intro s h
  refine ⟨?_, rfl⟩
  unfold emit_string_style
  rcases h with h | h | h
  · simp [h]
  · simp [h]
  · simp [h]

/-- Witness for C10 at the keyword string `"true"`. -/
theorem claim10_yaml_string_round_trip_witness :
    emit_string_style "true" = .doubleQuoted ∧
    parse_yaml_scalar none .doubleQuoted "true" = .str "true" :=
  claim10_yaml_string_round_trip "true" (Or.inr (Or.inl (by decide)))

/-! ## Helper lemmas for the evaluator claims -/

lemma str_append_empty (s : String) : s ++ "" = s := by
  obtain ⟨l⟩ := s
  exact congrArg String.mk (List.append_nil l)

lemma str_empty_append (s : String) : "" ++ s = s := by
  obtain ⟨l⟩ := s
  rfl

lemma str_append_assoc (a b c : String) : a ++ b ++ c = a ++ (b ++ c) := by
  obtain ⟨la⟩ := a
  obtain ⟨lb⟩ := b
  obtain ⟨lc⟩ := c
  exact congrArg String.mk (List.append_assoc la lb lc)

lemma assocGet_assocSet_self (n : String) (v : UcValue) (fr : Frame) :
    assocGet n (assocSet n v fr) = some v := by
  induction fr with
  | nil => simp [assocGet, assocSet]
  | cons kv rest ih =>
    obtain ⟨k, w⟩ := kv
    by_cases h : k = n
    · simp [assocGet, assocSet, h]
    · simp [assocGet, assocSet, h, ih]

lemma assocGet_assocSet_ne (m n : String) (v : UcValue) (fr : Frame) (h : m ≠ n) :
    assocGet m (assocSet n v fr) = assocGet m fr := by
  have hnm : ¬(n = m) := fun hh => h hh.symm
  induction fr with
  | nil => simp [assocGet, assocSet, hnm]
  | cons kv rest ih =>
    obtain ⟨k, w⟩ := kv
    by_cases hk : k = n
    · subst hk
      simp [assocGet, assocSet, hnm]
    · simp [assocGet, assocSet, hk, ih]

lemma assignVar_single (fr : Frame) (vn : String) (v : UcValue) :
    assignVar [fr] [0] vn v = [assocSet vn v fr] := by
  unfold assignVar envFrameOf
  cases h : [0].find? (fun fid => (assocGet vn (heapGet [fr] fid)).isSome) with
  | none => simp [heapGet, heapSet]
  | some fid =>
    have : fid = 0 := by
      have := List.find?_some h
      have hmem := List.mem_of_find?_eq_some h
      simpa using hmem
    subst this
    simp [heapGet, heapSet]

lemma interp_stmts_nil (f : Nat) (env : List Nat) (st : EvalState) :
    interp f (.stmts env []) st = (st, .ctl .normal) := by
  simp [interp]

lemma interp_stmts_singleton (f : Nat) (env : List Nat) (s : Stmt) (st : EvalState) :
    interp f (.stmts env [s]) st = interp f (.stmt env s) st := by
  rcases hh : interp f (.stmt env s) st with ⟨st1, o⟩
  rw [interp.eq_def]
  simp only [hh]
  rcases o with v | vs | kvs | c
  · rfl
  · rfl
  · rfl
  · rcases c with _ | _ | _ | v | m <;> simp [interp_stmts_nil]

lemma interp_block_singleton (f : Nat) (env : List Nat) (s : Stmt) (st : EvalState) :
    interp f (.stmt env (.block [s])) st = interp f (.stmt env s) st := by
  rw [show interp f (.stmt env (.block [s])) st = interp f (.stmts env [s]) st from by
    rw [interp.eq_def]]
  exact interp_stmts_singleton f env s st

lemma interp_lpC_block (env : List Nat) (cond step : Option Expr) (b : Stmt) :
    ∀ (f : Nat) (st : EvalState),
      interp f (.lpC env cond step (.block [b])) st = interp f (.lpC env cond step b) st := by
  intro f
  induction f with
  | zero => intro st; rw [interp.eq_def, interp.eq_def]
  | succ g ih =>
    intro st
    rw [interp.eq_def]
    conv_rhs => rw [interp.eq_def]
    simp only [interp_block_singleton, ih]

lemma interp_forC_block (f : Nat) (env : List Nat) (init : Option Stmt)
    (cond step : Option Expr) (b : Stmt) (st : EvalState) :
    interp f (.stmt env (.forC init cond step (.block [b]))) st =
      interp f (.stmt env (.forC init cond step b)) st := by
  rw [interp.eq_def]
  conv_rhs => rw [interp.eq_def]
  cases init with
  | none => simp only [interp_lpC_block]
  | some i =>
    rcases hh : interp f (.stmt env i) st with ⟨st1, o⟩
    simp only [hh]
    rcases o with v | vs | kvs | c
    · rfl
    · rfl
    · rfl
    · rcases c with _ | _ | _ | v | m <;> simp only [interp_lpC_block]

lemma interp_lpIn_print (pre vn : String) (hvn : vn ≠ "print") :
    ∀ (items : List UcValue) (g : Nat) (fr : Frame) (out0 : String),
      assocGet "print" fr = none →
      ∃ fr', interp g (.lpIn [0] false vn items (varPrintBody pre vn)) ⟨[fr], out0⟩
          = (⟨[fr'], out0 ++ printOuts pre items⟩, .ctl .normal)
        ∧ assocGet "print" fr' = none := by
  intro items
  induction items with
  | nil =>
    intro g fr out0 hp
    refine ⟨fr, ?_, hp⟩
    rw [interp.eq_def]
    simp [printOuts, str_append_empty]
  | cons it rest ih =>
    intro g fr out0 hp
    have hpn : ("print" : String) ≠ vn := fun hh => hvn hh.symm
    have hp1 : assocGet "print" (assocSet vn it fr) = none := by
      rw [assocGet_assocSet_ne _ _ _ _ hpn]
      exact hp
    have hbody : interp g (.stmt [0] (varPrintBody pre vn)) ⟨[assocSet vn it fr], out0⟩
        = (⟨[assocSet vn it fr], out0 ++ (pre ++ toStr it ++ "\n")⟩, .ctl .normal) := by
      simp [interp, varPrintBody, printE, lookupVar, heapGet, assocGet_assocSet_self, hp1,
            doPrint, strConcat, toStr, str_append_assoc, str_append_empty]
    obtain ⟨fr', hrun, hfr'⟩ :=
      ih g (assocSet vn it fr) (out0 ++ (pre ++ toStr it ++ "\n")) hp1
    refine ⟨fr', ?_, hfr'⟩
    rw [interp.eq_def]
    simp only [Bool.false_eq_true, if_false, assignVar_single]
    simp only [hbody]
    simp only [hrun, printOuts]
    simp [str_append_assoc]

lemma printOuts_obj_keys (kvs : List (String × UcValue)) :
    printOuts "Key: " (kvs.map (fun kv => .str kv.1)) = keysOut kvs := by
  induction kvs with
  | nil => rfl
  | cons kv rest ih => simp [printOuts, keysOut, toStr, ih]

lemma printOuts_arr_items (xs : List UcValue) :
    printOuts "Item: " xs = itemsOut xs := by
  induction xs with
  | nil => rfl
  | cons x rest ih => simp [printOuts, itemsOut, ih]

lemma interp_forIn_obj (kvs : List (String × UcValue)) (g : Nat) :
    ∃ fr', interp (g + 1)
        (.stmt [0] (.forIn false "key" (.lit (.obj kvs)) (varPrintBody "Key: " "key")))
        ⟨[[]], ""⟩
      = (⟨[fr'], keysOut kvs⟩, .ctl .normal) := by
  obtain ⟨fr', hrun, _⟩ :=
    interp_lpIn_print "Key: " "key" (by decide) (kvs.map (fun kv => .str kv.1)) g [] "" rfl
  refine ⟨fr', ?_⟩
  have hc : interp (g + 1) (.expr [0] (.lit (.obj kvs))) (⟨[[]], ""⟩ : EvalState)
      = (⟨[[]], ""⟩, .val (.obj kvs)) := by
    rw [interp.eq_def]
  rw [interp.eq_def]
  simp only [hc]
  rw [interp.eq_def]
  simp only [enumList]
  rw [hrun, str_empty_append, printOuts_obj_keys]

lemma interp_forIn_arr (xs : List UcValue) (g : Nat) :
    ∃ fr', interp (g + 1)
        (.stmt [0] (.forIn false "item" (.lit (.arr xs)) (varPrintBody "Item: " "item")))
        ⟨[[]], ""⟩
      = (⟨[fr'], itemsOut xs⟩, .ctl .normal) := by
  obtain ⟨fr', hrun, _⟩ :=
    interp_lpIn_print "Item: " "item" (by decide) xs g [] "" rfl
  refine ⟨fr', ?_⟩
  have hc : interp (g + 1) (.expr [0] (.lit (.arr xs))) (⟨[[]], ""⟩ : EvalState)
      = (⟨[[]], ""⟩, .val (.arr xs)) := by
    rw [interp.eq_def]
  rw [interp.eq_def]
  simp only [hc]
  rw [interp.eq_def]
  simp only [enumList]
  rw [hrun, str_empty_append, printOuts_arr_items]

/-! ### Small-step rewriting lemmas for the evaluator

One lemma per evaluation rule, proved once on symbolic arguments; the
concrete fixture runs below are chains of these. -/

lemma istep_lit {f : Nat} {env : List Nat} {v : UcValue} {st : EvalState} :
    interp f (.expr env (.lit v)) st = (st, .val v) := by
  rw [interp.eq_def]

lemma istep_ident {f : Nat} {env : List Nat} {n : String} {st : EvalState} :
    interp f (.expr env (.ident n)) st
      = (st, .val ((lookupVar st.heap env n).getD .null)) := by
  rw [interp.eq_def]

lemma istep_arrLit {f : Nat} {env : List Nat} {es : List Expr} {st st1 : EvalState}
    {vs : List UcValue} (h : interp f (.exprs env es) st = (st1, .vals vs)) :
    interp f (.expr env (.arrLit es)) st = (st1, .val (.arr vs)) := by
  rw [interp.eq_def]
  simp only [h]

lemma istep_objLit {f : Nat} {env : List Nat} {fes : List (String × Expr)}
    {st st1 : EvalState} {kvs : List (String × UcValue)}
    (h : interp f (.fields env fes) st = (st1, .flds kvs)) :
    interp f (.expr env (.objLit fes)) st = (st1, .val (.obj kvs)) := by
  rw [interp.eq_def]
  simp only [h]

lemma istep_assign {f : Nat} {env : List Nat} {n : String} {e : Expr} {st st1 : EvalState}
    {v : UcValue} (h : interp f (.expr env e) st = (st1, .val v)) :
    interp f (.expr env (.assign n e)) st
      = ({ st1 with heap := assignVar st1.heap env n v }, .val v) := by
  rw [interp.eq_def]
  simp only [h]

lemma istep_postIncr {f : Nat} {env : List Nat} {n : String} {st : EvalState} :
    interp f (.expr env (.postIncr n)) st
      = ({ st with
            heap := assignVar st.heap env n
              (numToVal (numAdd (toNumeric ((lookupVar st.heap env n).getD .null)) (.int 1))) },
         .val ((lookupVar st.heap env n).getD .null)) := by
  rw [interp.eq_def]

lemma istep_binop {f : Nat} {env : List Nat} {op : BinOp} {l r : Expr}
    {st st1 st2 : EvalState} {vl vr : UcValue}
    (h1 : interp f (.expr env l) st = (st1, .val vl))
    (h2 : interp f (.expr env r) st1 = (st2, .val vr)) :
    interp f (.expr env (.binop op l r)) st = (st2, .val (applyBinOp op vl vr)) := by
  rw [interp.eq_def]
  simp only [h1, h2]

lemma istep_exprs_nil {f : Nat} {env : List Nat} {st : EvalState} :
    interp f (.exprs env []) st = (st, .vals []) := by
  rw [interp.eq_def]

lemma istep_exprs_cons {f : Nat} {env : List Nat} {e : Expr} {rest : List Expr}
    {st st1 st2 : EvalState} {v : UcValue} {vs : List UcValue}
    (h1 : interp f (.expr env e) st = (st1, .val v))
    (h2 : interp f (.exprs env rest) st1 = (st2, .vals vs)) :
    interp f (.exprs env (e :: rest)) st = (st2, .vals (v :: vs)) := by
  rw [interp.eq_def]
  simp only [h1, h2]

lemma istep_fields_nil {f : Nat} {env : List Nat} {st : EvalState} :
    interp f (.fields env []) st = (st, .flds []) := by
  rw [interp.eq_def]

lemma istep_fields_cons {f : Nat} {env : List Nat} {k : String} {e : Expr}
    {rest : List (String × Expr)} {st st1 st2 : EvalState} {v : UcValue}
    {kvs : List (String × UcValue)}
    (h1 : interp f (.expr env e) st = (st1, .val v))
    (h2 : interp f (.fields env rest) st1 = (st2, .flds kvs)) :
    interp f (.fields env ((k, e) :: rest)) st = (st2, .flds ((k, v) :: kvs)) := by
  rw [interp.eq_def]
  simp only [h1, h2]

lemma istep_call_print {f : Nat} {env : List Nat} {args : List Expr} {st st1 : EvalState}
    {vs : List UcValue}
    (h : interp f (.exprs env args) st = (st1, .vals vs))
    (hl : lookupVar st1.heap env "print" = none) :
    interp f (.expr env (.call (.ident "print") args)) st = (doPrint st1 vs, .val .null) := by
  rw [interp.eq_def]
  simp only [h, hl]

lemma istep_call_clos {f : Nat} {env : List Nat} {n : String} {args : List Expr}
    {st st1 : EvalState} {vs : List UcValue} {clos : UcValue}
    (h : interp f (.exprs env args) st = (st1, .vals vs))
    (hl : lookupVar st1.heap env n = some clos) :
    interp f (.expr env (.call (.ident n) args)) st = interp f (.callF clos vs) st1 := by
  rw [interp.eq_def]
  simp only [h, hl]

lemma istep_callF_ret {g : Nat} {nm : Option String} {params : List String}
    {body : List Stmt} {cenv : List Nat} {args : List UcValue} {st st2 : EvalState}
    {v : UcValue}
    (h : interp g (.stmts (st.heap.length :: cenv) body)
          { st with heap := st.heap ++ [bindParams params args] } = (st2, .ctl (.ret v))) :
    interp (g + 1) (.callF (.func nm params body cenv) args) st = (st2, .val v) := by
  rw [interp.eq_def]
  simp only [h]

lemma istep_stmt_exprStmt {f : Nat} {env : List Nat} {e : Expr} {st st1 : EvalState}
    {v : UcValue} (h : interp f (.expr env e) st = (st1, .val v)) :
    interp f (.stmt env (.exprStmt e)) st = (st1, .ctl .normal) := by
  rw [interp.eq_def]
  simp only [h]

lemma istep_stmts_cons {f : Nat} {env : List Nat} {s : Stmt} {rest : List Stmt}
    {st st1 : EvalState} (h : interp f (.stmt env s) st = (st1, .ctl .normal)) :
    interp f (.stmts env (s :: rest)) st = interp f (.stmts env rest) st1 := by
  rw [interp.eq_def]
  simp only [h]

lemma istep_stmt_block {f : Nat} {env : List Nat} {ss : List Stmt} {st : EvalState} :
    interp f (.stmt env (.block ss)) st = interp f (.stmts env ss) st := by
  rw [interp.eq_def]

lemma istep_stmt_funcDecl {f : Nat} {env : List Nat} {n : String} {params : List String}
    {body : List Stmt} {st : EvalState} :
    interp f (.stmt env (.funcDecl n params body)) st
      = ({ st with heap := declareLocal st.heap env n (.func (some n) params body env) },
         .ctl .normal) := by
  rw [interp.eq_def]

lemma istep_stmt_ret {f : Nat} {env : List Nat} {e : Expr} {st st1 : EvalState}
    {v : UcValue} (h : interp f (.expr env e) st = (st1, .val v)) :
    interp f (.stmt env (.ret (some e))) st = (st1, .ctl (.ret v)) := by
  rw [interp.eq_def]
  simp only [h]

lemma istep_stmt_forC_init {f : Nat} {env : List Nat} {i : Stmt} {cond step : Option Expr}
    {body : Stmt} {st st1 : EvalState}
    (h : interp f (.stmt env i) st = (st1, .ctl .normal)) :
    interp f (.stmt env (.forC (some i) cond step body)) st
      = interp f (.lpC env cond step body) st1 := by
  rw [interp.eq_def]
  simp only [h]

lemma istep_stmt_forIn {f : Nat} {env : List Nat} {isLocal : Bool} {n : String}
    {coll : Expr} {body : Stmt} {st st1 : EvalState} {v : UcValue}
    (h : interp f (.expr env coll) st = (st1, .val v)) :
    interp f (.stmt env (.forIn isLocal n coll body)) st
      = interp f (.lpInStart env isLocal n v body) st1 := by
  rw [interp.eq_def]
  simp only [h]

lemma istep_lpInStart {g : Nat} {env : List Nat} {isLocal : Bool} {n : String}
    {v : UcValue} {body : Stmt} {st : EvalState} :
    interp (g + 1) (.lpInStart env isLocal n v body) st
      = interp g (.lpIn env isLocal n (enumList v) body) st := by
  rw [interp.eq_def]

lemma istep_lpC_exit {g : Nat} {env : List Nat} {c : Expr} {step : Option Expr}
    {body : Stmt} {st st1 : EvalState} {cv : UcValue}
    (hc : interp g (.expr env c) st = (st1, .val cv))
    (ht : truthy cv = false) :
    interp (g + 1) (.lpC env (some c) step body) st = (st1, .ctl .normal) := by
  rw [interp.eq_def]
  simp only [hc, ht]

lemma istep_lpC_iter {g : Nat} {env : List Nat} {c se : Expr} {body : Stmt}
    {st st1 st2 st3 : EvalState} {cv w : UcValue}
    (hc : interp g (.expr env c) st = (st1, .val cv))
    (ht : truthy cv = true)
    (hb : interp g (.stmt env body) st1 = (st2, .ctl .normal))
    (hs : interp g (.expr env se) st2 = (st3, .val w)) :
    interp (g + 1) (.lpC env (some c) (some se) body) st
      = interp g (.lpC env (some c) (some se) body) st3 := by
  rw [interp.eq_def]
  simp only [hc, ht, hb, hs]

lemma runProg_forInObj :
    ∃ fr', runProg 20 forInObjProg = (⟨[fr'], "Key: foo\nKey: bar\n"⟩, .ctl .normal) := by
  obtain ⟨fr', hrun, _⟩ :=
    interp_lpIn_print "Key: " "key" (by decide) [.str "foo", .str "bar"] 19
      [("obj", .obj [("foo", .bool true), ("bar", .bool false)])] "" rfl
  refine ⟨fr', ?_⟩
  have hflds : interp 20 (.fields [0] [("foo", .lit (.bool true)), ("bar", .lit (.bool false))])
      (⟨[[]], ""⟩ : EvalState)
      = (⟨[[]], ""⟩, .flds [("foo", .bool true), ("bar", .bool false)]) :=
    istep_fields_cons istep_lit (istep_fields_cons istep_lit istep_fields_nil)
  have hassign : interp 20 (.expr [0] (.assign "obj"
        (.objLit [("foo", .lit (.bool true)), ("bar", .lit (.bool false))])))
      (⟨[[]], ""⟩ : EvalState)
      = (⟨[[("obj", .obj [("foo", .bool true), ("bar", .bool false)])]], ""⟩,
         .val (.obj [("foo", .bool true), ("bar", .bool false)])) :=
    istep_assign (istep_objLit hflds)
  have hident : interp 20 (.expr [0] (.ident "obj"))
      (⟨[[("obj", .obj [("foo", .bool true), ("bar", .bool false)])]], ""⟩ : EvalState)
      = (⟨[[("obj", .obj [("foo", .bool true), ("bar", .bool false)])]], ""⟩,
         .val (.obj [("foo", .bool true), ("bar", .bool false)])) :=
    istep_ident
  calc runProg 20 forInObjProg
      = interp 20 (.stmts [0] [.forIn false "key" (.ident "obj") (varPrintBody "Key: " "key")])
          ⟨[[("obj", .obj [("foo", .bool true), ("bar", .bool false)])]], ""⟩ :=
        istep_stmts_cons (istep_stmt_exprStmt hassign)
    _ = interp 20 (.stmt [0] (.forIn false "key" (.ident "obj") (varPrintBody "Key: " "key")))
          ⟨[[("obj", .obj [("foo", .bool true), ("bar", .bool false)])]], ""⟩ :=
        interp_stmts_singleton _ _ _ _
    _ = interp 20 (.lpInStart [0] false "key"
            (.obj [("foo", .bool true), ("bar", .bool false)]) (varPrintBody "Key: " "key"))
          ⟨[[("obj", .obj [("foo", .bool true), ("bar", .bool false)])]], ""⟩ :=
        istep_stmt_forIn hident
    _ = interp 19 (.lpIn [0] false "key" [.str "foo", .str "bar"] (varPrintBody "Key: " "key"))
          ⟨[[("obj", .obj [("foo", .bool true), ("bar", .bool false)])]], ""⟩ :=
        istep_lpInStart
    _ = (⟨[fr'], "" ++ printOuts "Key: " [.str "foo", .str "bar"]⟩, .ctl .normal) := hrun
    _ = (⟨[fr'], "Key: foo\nKey: bar\n"⟩, .ctl .normal) := rfl

lemma runProg_forInArr :
    ∃ fr', runProg 20 forInArrProg =
      (⟨[fr'], "Item: one\nItem: two\nItem: three\n"⟩, .ctl .normal) := by
  obtain ⟨fr', hrun, _⟩ :=
    interp_lpIn_print "Item: " "item" (by decide) [.str "one", .str "two", .str "three"] 19
      [("arr", .arr [.str "one", .str "two", .str "three"])] "" rfl
  refine ⟨fr', ?_⟩
  have hels : interp 20 (.exprs [0] [.lit (.str "one"), .lit (.str "two"), .lit (.str "three")])
      (⟨[[]], ""⟩ : EvalState)
      = (⟨[[]], ""⟩, .vals [.str "one", .str "two", .str "three"]) :=
    istep_exprs_cons istep_lit (istep_exprs_cons istep_lit
      (istep_exprs_cons istep_lit istep_exprs_nil))
  have hassign : interp 20 (.expr [0] (.assign "arr"
        (.arrLit [.lit (.str "one"), .lit (.str "two"), .lit (.str "three")])))
      (⟨[[]], ""⟩ : EvalState)
      = (⟨[[("arr", .arr [.str "one", .str "two", .str "three"])]], ""⟩,
         .val (.arr [.str "one", .str "two", .str "three"])) :=
    istep_assign (istep_arrLit hels)
  have hident : interp 20 (.expr [0] (.ident "arr"))
      (⟨[[("arr", .arr [.str "one", .str "two", .str "three"])]], ""⟩ : EvalState)
      = (⟨[[("arr", .arr [.str "one", .str "two", .str "three"])]], ""⟩,
         .val (.arr [.str "one", .str "two", .str "three"])) :=
    istep_ident
  calc runProg 20 forInArrProg
      = interp 20 (.stmts [0] [.forIn false "item" (.ident "arr") (varPrintBody "Item: " "item")])
          ⟨[[("arr", .arr [.str "one", .str "two", .str "three"])]], ""⟩ :=
        istep_stmts_cons (istep_stmt_exprStmt hassign)
    _ = interp 20 (.stmt [0] (.forIn false "item" (.ident "arr") (varPrintBody "Item: " "item")))
          ⟨[[("arr", .arr [.str "one", .str "two", .str "three"])]], ""⟩ :=
        interp_stmts_singleton _ _ _ _
    _ = interp 20 (.lpInStart [0] false "item"
            (.arr [.str "one", .str "two", .str "three"]) (varPrintBody "Item: " "item"))
          ⟨[[("arr", .arr [.str "one", .str "two", .str "three"])]], ""⟩ :=
        istep_stmt_forIn hident
    _ = interp 19 (.lpIn [0] false "item" [.str "one", .str "two", .str "three"]
            (varPrintBody "Item: " "item"))
          ⟨[[("arr", .arr [.str "one", .str "two", .str "three"])]], ""⟩ :=
        istep_lpInStart
    _ = (⟨[fr'], "" ++ printOuts "Item: " [.str "one", .str "two", .str "three"]⟩, .ctl .normal) :=
        hrun
    _ = (⟨[fr'], "Item: one\nItem: two\nItem: three\n"⟩, .ctl .normal) := rfl

/-- C6: a for-in loop over an object visits exactly the object's keys in
insertion order, and over an array exactly the items in index order
0..length-1: for every object the loop output lists the keys in
insertion order, for every array the items in index order, and the
fixture's `{ foo: true, bar: false }` and `[ "one", "two", "three" ]`
loops emit `Key: foo`, `Key: bar` and `Item: one`, `Item: two`,
`Item: three`. -/
theorem claim6_forin_enumeration_order :
    (∀ (kvs : List (String × UcValue)) (g : Nat),
      ∃ fr', interp (g + 1)
          (.stmt [0] (.forIn false "key" (.lit (.obj kvs)) (varPrintBody "Key: " "key")))
          ⟨[[]], ""⟩
        = (⟨[fr'], keysOut kvs⟩, .ctl .normal)) ∧
    (∀ (xs : List UcValue) (g : Nat),
      ∃ fr', interp (g + 1)
          (.stmt [0] (.forIn false "item" (.lit (.arr xs)) (varPrintBody "Item: " "item")))
          ⟨[[]], ""⟩
        = (⟨[fr'], itemsOut xs⟩, .ctl .normal)) ∧
    keysOut [("foo", .bool true), ("bar", .bool false)] = "Key: foo\nKey: bar\n" ∧
    itemsOut [.str "one", .str "two", .str "three"] = "Item: one\nItem: two\nItem: three\n" ∧
    (∃ fr', runProg 20 forInObjProg = (⟨[fr'], "Key: foo\nKey: bar\n"⟩, .ctl .normal)) ∧
    (∃ fr', runProg 20 forInArrProg =
      (⟨[fr'], "Item: one\nItem: two\nItem: three\n"⟩, .ctl .normal)) :=
  ⟨interp_forIn_obj, interp_forIn_arr, rfl, rfl, runProg_forInObj, runProg_forInArr⟩

lemma fitsI64_of_bounds {m : Int} (h1 : -(2 ^ 63) ≤ m) (h2 : m < 2 ^ 63) :
    fitsI64 m = true := by
  simp [fitsI64]
  omega

lemma countLoopAux (body : Stmt) (emit : Int → String) (n : Int)
    (hbody : ∀ (g : Nat) (k : Int) (out0 : String),
      interp g (.stmt [0] body) ⟨[[("i", .i64 k)]], out0⟩
        = (⟨[[("i", .i64 k)]], out0 ++ emit k⟩, .ctl .normal)) :
    ∀ (cnt : Nat) (g : Nat) (k : Int) (out0 : String),
      cnt < g → -(2 ^ 63) ≤ k → k + cnt = n → n < 2 ^ 63 →
      interp g
        (.lpC [0] (some (.binop .lt (.ident "i") (.lit (.i64 n)))) (some (.postIncr "i")) body)
        ⟨[[("i", .i64 k)]], out0⟩
      = (⟨[[("i", .i64 n)]], out0 ++ emitRange emit k cnt⟩, .ctl .normal) := by
  intro cnt
  induction cnt with
  | zero =>
    intro g k out0 hg hk hkn hn
    cases g with
    | zero => omega
    | succ g' =>
      have hkn' : k = n := by omega
      subst hkn'
      have hflt : applyBinOp .lt (.i64 k) (.i64 k) = .bool false := by
        simp [applyBinOp, ucLt, numLt, toNumeric]
      have hcond : interp g' (.expr [0] (.binop .lt (.ident "i") (.lit (.i64 k))))
          (⟨[[("i", .i64 k)]], out0⟩ : EvalState)
          = (⟨[[("i", .i64 k)]], out0⟩, .val (.bool false)) := by
        rw [istep_binop istep_ident istep_lit]
        exact congrArg (fun v => ((⟨[[("i", .i64 k)]], out0⟩ : EvalState), Out.val v)) hflt
      rw [istep_lpC_exit hcond rfl]
      rw [emitRange, str_append_empty]
  | succ c ih =>
    intro g k out0 hg hk hkn hn
    cases g with
    | zero => omega
    | succ g' =>
      have hlt : k < n := by omega
      have hflt : applyBinOp .lt (.i64 k) (.i64 n) = .bool true := by
        simp [applyBinOp, ucLt, numLt, toNumeric, hlt]
      have hcond : interp g' (.expr [0] (.binop .lt (.ident "i") (.lit (.i64 n))))
          (⟨[[("i", .i64 k)]], out0⟩ : EvalState)
          = (⟨[[("i", .i64 k)]], out0⟩, .val (.bool true)) := by
        rw [istep_binop istep_ident istep_lit]
        exact congrArg (fun v => ((⟨[[("i", .i64 k)]], out0⟩ : EvalState), Out.val v)) hflt
      have hinc : numToVal (numAdd (toNumeric
            ((lookupVar [[("i", .i64 k)]] [0] "i").getD .null)) (.int 1)) = .i64 (k + 1) := by
        have hf : fitsI64 (k + 1) = true := fitsI64_of_bounds (by omega) (by omega)
        simp [lookupVar, heapGet, assocGet, toNumeric, numAdd, intArith, hf, numToVal]
      have hstep : interp g' (.expr [0] (.postIncr "i"))
          (⟨[[("i", .i64 k)]], out0 ++ emit k⟩ : EvalState)
          = (⟨[[("i", .i64 (k + 1))]], out0 ++ emit k⟩, .val (.i64 k)) := by
        rw [istep_postIncr]
        rw [show (lookupVar [[("i", UcValue.i64 k)]] [0] "i").getD .null = UcValue.i64 k from rfl]
        rw [show numToVal (numAdd (toNumeric (UcValue.i64 k)) (.int 1)) = .i64 (k + 1) from hinc]
        rfl
      rw [istep_lpC_iter hcond rfl (hbody g' k out0) hstep]
      rw [ih g' (k + 1) (out0 ++ emit k) (by omega) (by omega) (by omega) hn]
      rw [emitRange, str_append_assoc]

lemma bracelessBody_emit (g : Nat) (k : Int) (out0 : String) :
    interp g (.stmt [0] bracelessBody) ⟨[[("i", .i64 k)]], out0⟩
      = (⟨[[("i", .i64 k)]], out0 ++ iterEmit k⟩, .ctl .normal) := by
  have hargs : interp g (.exprs [0] [.lit (.str "Iteration "), .ident "i", .lit (.str "\n")])
      (⟨[[("i", .i64 k)]], out0⟩ : EvalState)
      = (⟨[[("i", .i64 k)]], out0⟩, .vals [.str "Iteration ", .i64 k, .str "\n"]) :=
    istep_exprs_cons istep_lit
      (istep_exprs_cons istep_ident (istep_exprs_cons istep_lit istep_exprs_nil))
  calc interp g (.stmt [0] bracelessBody) ⟨[[("i", .i64 k)]], out0⟩
      = (doPrint ⟨[[("i", .i64 k)]], out0⟩ [.str "Iteration ", .i64 k, .str "\n"],
         .ctl .normal) :=
        istep_stmt_exprStmt (istep_call_print hargs rfl)
    _ = (⟨[[("i", .i64 k)]], out0 ++ iterEmit k⟩, .ctl .normal) := by
        simp [doPrint, strConcat, toStr, jsonStr, iterEmit, str_append_assoc, str_append_empty]

lemma bracedBody_emit (g : Nat) (k : Int) (out0 : String) :
    interp g (.stmt [0] bracedBody) ⟨[[("i", .i64 k)]], out0⟩
      = (⟨[[("i", .i64 k)]], out0 ++ iterEmit k⟩, .ctl .normal) := by
  calc interp g (.stmt [0] bracedBody) ⟨[[("i", .i64 k)]], out0⟩
      = interp g (.stmts [0]
          [ .exprStmt (printE [.lit (.str "Iteration ")]),
            .exprStmt (printE [.ident "i"]),
            .exprStmt (printE [.lit (.str "\n")]) ]) ⟨[[("i", .i64 k)]], out0⟩ :=
        istep_stmt_block
    _ = interp g (.stmts [0]
          [ .exprStmt (printE [.ident "i"]),
            .exprStmt (printE [.lit (.str "\n")]) ]) ⟨[[("i", .i64 k)]], out0 ++ "Iteration "⟩ :=
        istep_stmts_cons (istep_stmt_exprStmt
          (istep_call_print (istep_exprs_cons istep_lit istep_exprs_nil) rfl))
    _ = interp g (.stmts [0] [ .exprStmt (printE [.lit (.str "\n")]) ])
          ⟨[[("i", .i64 k)]], (out0 ++ "Iteration ") ++ (toStr (.i64 k) ++ "")⟩ :=
        istep_stmts_cons (istep_stmt_exprStmt
          (istep_call_print (istep_exprs_cons istep_ident istep_exprs_nil) rfl))
    _ = interp g (.stmts [0] ([] : List Stmt))
          ⟨[[("i", .i64 k)]], ((out0 ++ "Iteration ") ++ (toStr (.i64 k) ++ "")) ++ "\n"⟩ :=
        istep_stmts_cons (istep_stmt_exprStmt
          (istep_call_print (istep_exprs_cons istep_lit istep_exprs_nil) rfl))
    _ = (⟨[[("i", .i64 k)]], ((out0 ++ "Iteration ") ++ (toStr (.i64 k) ++ "")) ++ "\n"⟩,
         .ctl .normal) := interp_stmts_nil _ _ _
    _ = (⟨[[("i", .i64 k)]], out0 ++ iterEmit k⟩, .ctl .normal) := by
        simp [toStr, jsonStr, iterEmit, str_append_assoc, str_append_empty]

lemma runProg_braceless :
    runProg 30 [forLoopBraceless]
      = (⟨[[("i", .i64 10)]], emitRange iterEmit 0 10⟩, .ctl .normal) := by
  calc runProg 30 [forLoopBraceless]
      = interp 30 (.stmt [0] forLoopBraceless) ⟨[[]], ""⟩ := interp_stmts_singleton _ _ _ _
    _ = interp 30 (.lpC [0] (some iterCond) (some (.postIncr "i")) bracelessBody)
          ⟨[[("i", .i64 0)]], ""⟩ :=
        istep_stmt_forC_init (istep_stmt_exprStmt (istep_assign istep_lit))
    _ = (⟨[[("i", .i64 10)]], "" ++ emitRange iterEmit 0 10⟩, .ctl .normal) :=
        countLoopAux bracelessBody iterEmit 10 bracelessBody_emit 10 30 0 ""
          (by omega) (by norm_num) (by norm_num) (by norm_num)
    _ = (⟨[[("i", .i64 10)]], emitRange iterEmit 0 10⟩, .ctl .normal) := by
        rw [str_empty_append]

lemma runProg_braced :
    runProg 30 [forLoopBraced]
      = (⟨[[("i", .i64 10)]], emitRange iterEmit 0 10⟩, .ctl .normal) := by
  calc runProg 30 [forLoopBraced]
      = interp 30 (.stmt [0] forLoopBraced) ⟨[[]], ""⟩ := interp_stmts_singleton _ _ _ _
    _ = interp 30 (.lpC [0] (some iterCond) (some (.postIncr "i")) bracedBody)
          ⟨[[("i", .i64 0)]], ""⟩ :=
        istep_stmt_forC_init (istep_stmt_exprStmt (istep_assign istep_lit))
    _ = (⟨[[("i", .i64 10)]], "" ++ emitRange iterEmit 0 10⟩, .ctl .normal) :=
        countLoopAux bracedBody iterEmit 10 bracedBody_emit 10 30 0 ""
          (by omega) (by norm_num) (by norm_num) (by norm_num)
    _ = (⟨[[("i", .i64 10)]], emitRange iterEmit 0 10⟩, .ctl .normal) := by
        rw [str_empty_append]

lemma emitRange_ten :
    emitRange iterEmit 0 10 =
      "Iteration 0\nIteration 1\nIteration 2\nIteration 3\nIteration 4\nIteration 5\nIteration 6\nIteration 7\nIteration 8\nIteration 9\n" := by
  rfl

/-- C7: a three-clause for loop with a brace-delimited body and the same
loop with a brace-less single-statement body produce identical iteration
output: for every body, `for (init; cond; step) { body }` evaluates
exactly as `for (init; cond; step) body`, and the fixture's braced and
brace-less counting loops both emit exactly `Iteration 0` through
`Iteration 9`. -/
theorem claim7_brace_equivalence :
    (∀ (f : Nat) (env : List Nat) (init : Option Stmt) (cond step : Option Expr) (b : Stmt)
       (st : EvalState),
      execStmt f env (.forC init cond step (.block [b])) st
        = execStmt f env (.forC init cond step b) st) ∧
    runProg 30 [forLoopBraced] =
      (⟨[[("i", .i64 10)]],
        "Iteration 0\nIteration 1\nIteration 2\nIteration 3\nIteration 4\nIteration 5\nIteration 6\nIteration 7\nIteration 8\nIteration 9\n"⟩,
       .ctl .normal) ∧
    runProg 30 [forLoopBraceless] =
      (⟨[[("i", .i64 10)]],
        "Iteration 0\nIteration 1\nIteration 2\nIteration 3\nIteration 4\nIteration 5\nIteration 6\nIteration 7\nIteration 8\nIteration 9\n"⟩,
       .ctl .normal) ∧
    (runProg 30 [forLoopBraced]).1.out = (runProg 30 [forLoopBraceless]).1.out := by
  refine ⟨?_, ?_, ?_, ?_⟩
  · intro f env init cond step b st
    exact interp_forC_block f env init cond step b st
  · rw [runProg_braced, emitRange_ten]
  · rw [runProg_braceless, emitRange_ten]
  · rw [runProg_braced, runProg_braceless]

lemma runProg_test2Decl :
    runProg 10 [test2Decl] = (⟨[[("test2_fn", test2Clos)]], ""⟩, .ctl .normal) :=
  calc runProg 10 [test2Decl]
      = interp 10 (.stmt [0] test2Decl) ⟨[[]], ""⟩ := interp_stmts_singleton _ _ _ _
    _ = (⟨[[("test2_fn", test2Clos)]], ""⟩, .ctl .normal) := istep_stmt_funcDecl

lemma test2_call_result (a b : Int) (h1 : fitsI64 (a * b) = true)
    (h2 : fitsI64 (a + a * b) = true) :
    interp 10 (.expr [0] (.call (.ident "test2_fn") [.lit (.i64 a), .lit (.i64 b)]))
      ⟨[[("test2_fn", test2Clos)]], ""⟩
    = (⟨c8H3 a b, ""⟩, .val (.i64 (a + a * b))) := by
  have hmul : applyBinOp .mul (.i64 a) (.i64 b) = .i64 (a * b) := by
    simp [applyBinOp, ucMul, toNumeric, numMul, intArith, h1, numToVal]
  have hadd : applyBinOp .add (.i64 a) (.i64 (a * b)) = .i64 (a + a * b) := by
    simp [ucAdd, applyBinOp, isStr, toNumeric, numAdd, intArith, h2, numToVal]
  have hbinmul : interp 8 (.expr [2, 1, 0] (.binop .mul (.ident "a") (.ident "b")))
      (⟨c8H3 a b, ""⟩ : EvalState)
      = (⟨c8H3 a b, ""⟩, .val (.i64 (a * b))) := by
    rw [istep_binop istep_ident istep_ident]
    exact congrArg (fun v => ((⟨c8H3 a b, ""⟩ : EvalState), Out.val v)) hmul
  have hinner3 : interp 8 (.stmts [2, 1, 0] test3Body) (⟨c8H3 a b, ""⟩ : EvalState)
      = (⟨c8H3 a b, ""⟩, .ctl (.ret (.i64 (a * b)))) := by
    rw [show test3Body = [Stmt.ret (some (.binop .mul (.ident "a") (.ident "b")))] from rfl]
    rw [interp_stmts_singleton]
    exact istep_stmt_ret hbinmul
  have hcall3 : interp 9 (.expr [1, 0] (.call (.ident "test3_fn") [.ident "a", .ident "b"]))
      (⟨c8H2 a b, ""⟩ : EvalState)
      = (⟨c8H3 a b, ""⟩, .val (.i64 (a * b))) := by
    have hargs : interp 9 (.exprs [1, 0] [.ident "a", .ident "b"]) (⟨c8H2 a b, ""⟩ : EvalState)
        = (⟨c8H2 a b, ""⟩, .vals [.i64 a, .i64 b]) :=
      istep_exprs_cons istep_ident (istep_exprs_cons istep_ident istep_exprs_nil)
    have hl : lookupVar (c8H2 a b) [1, 0] "test3_fn" = some test3Clos := rfl
    exact (istep_call_clos hargs hl).trans (istep_callF_ret hinner3)
  have hbinadd : interp 9 (.expr [1, 0]
        (.binop .add (.ident "a") (.call (.ident "test3_fn") [.ident "a", .ident "b"])))
      (⟨c8H2 a b, ""⟩ : EvalState)
      = (⟨c8H3 a b, ""⟩, .val (.i64 (a + a * b))) := by
    rw [istep_binop istep_ident hcall3]
    exact congrArg (fun v => ((⟨c8H3 a b, ""⟩ : EvalState), Out.val v)) hadd
  have hbody2 : interp 9 (.stmts [1, 0] test2Body) (⟨c8H1 a b, ""⟩ : EvalState)
      = (⟨c8H3 a b, ""⟩, .ctl (.ret (.i64 (a + a * b)))) := by
    calc interp 9 (.stmts [1, 0] test2Body) (⟨c8H1 a b, ""⟩ : EvalState)
        = interp 9 (.stmts [1, 0]
            [.ret (some (.binop .add (.ident "a")
              (.call (.ident "test3_fn") [.ident "a", .ident "b"])))])
            (⟨c8H2 a b, ""⟩ : EvalState) :=
          istep_stmts_cons istep_stmt_funcDecl
      _ = interp 9 (.stmt [1, 0]
            (.ret (some (.binop .add (.ident "a")
              (.call (.ident "test3_fn") [.ident "a", .ident "b"])))))
            (⟨c8H2 a b, ""⟩ : EvalState) := interp_stmts_singleton _ _ _ _
      _ = (⟨c8H3 a b, ""⟩, .ctl (.ret (.i64 (a + a * b)))) := istep_stmt_ret hbinadd
  have hargs2 : interp 10 (.exprs [0] [.lit (.i64 a), .lit (.i64 b)])
      (⟨[[("test2_fn", test2Clos)]], ""⟩ : EvalState)
      = (⟨[[("test2_fn", test2Clos)]], ""⟩, .vals [.i64 a, .i64 b]) :=
    istep_exprs_cons istep_lit (istep_exprs_cons istep_lit istep_exprs_nil)
  have hl2 : lookupVar [[("test2_fn", test2Clos)]] [0] "test2_fn" = some test2Clos := rfl
  exact (istep_call_clos hargs2 hl2).trans (istep_callF_ret hbody2)

/-- C8: declaring a named function binds the closure under that name in
the current scope frame, and nested named declarations are legal and
callable from the enclosing body: running the fixture's `test2_fn`
declaration binds `test2_fn` in the global frame, and for all `a`, `b`
whose products and sums stay in the Int64 range, `test2_fn(a, b)` -
which declares an inner `test3_fn(a, b) { return a * b; }` and returns
`a + test3_fn(a, b)` - evaluates to `a + a * b`. -/
theorem claim8_nested_function_declaration :
    (runProg 10 [test2Decl]).2 = .ctl .normal ∧
    lookupVar (runProg 10 [test2Decl]).1.heap [0] "test2_fn"
      = some (.func (some "test2_fn") ["a", "b"] test2Body [0]) ∧
    (∀ a b : Int, fitsI64 (a * b) = true → fitsI64 (a + a * b) = true →
      (interp 10 (.expr [0] (.call (.ident "test2_fn") [.lit (.i64 a), .lit (.i64 b)]))
        (runProg 10 [test2Decl]).1).2 = .val (.i64 (a + a * b))) := by
  refine ⟨?_, ?_, ?_⟩
  · rw [runProg_test2Decl]
  · rw [runProg_test2Decl]
    rfl
  · intro a b h1 h2
    have hst : (runProg 10 [test2Decl]).1 = (⟨[[("test2_fn", test2Clos)]], ""⟩ : EvalState) := by
      rw [runProg_test2Decl]
    rw [hst, test2_call_result a b h1 h2]

/-- Witness for C8 at `a = 3`, `b = 4`: the call returns `3 + 3 * 4`. -/
theorem claim8_nested_function_declaration_witness :
    fitsI64 ((3 : Int) * 4) = true ∧
    (interp 10 (.expr [0] (.call (.ident "test2_fn") [.lit (.i64 3), .lit (.i64 4)]))
      (runProg 10 [test2Decl]).1).2 = .val (.i64 (3 + 3 * 4)) :=
  ⟨by decide, claim8_nested_function_declaration.2.2 3 4 (by decide) (by decide)⟩

end Utpl
